import Mathlib

/-!
# Verification of the aiocr extraction pipeline

This file gives a shallow embedding, in Lean, of the core of the
document-to-structured-record extraction pipeline of the `aiocr` repository
(`server/app/services/openai_ocr_service.py` and
`server/app/services/ocr_processor.py`), together with theorems settling the
behavioural claims about that code.

Modelling conventions:

* Python strings are modelled as `List Char` (`Str`).  Regular-expression
  scans of the source are modelled by bespoke executable scanners that
  mirror the Python `re` semantics (leftmost match, non-overlapping
  `findall`, greedy repetition) for the concrete character classes used by
  the source patterns; digit classes are modelled as ASCII digits and the
  word-character class used by `\b` covers ASCII alphanumerics, underscore,
  kana and CJK ideographs, which are the characters exercised here.
* Python dicts keyed by strings are modelled as association lists with
  insert-or-overwrite update, preserving insertion order.
* Fallible code (`int()` conversions that can raise `ValueError`) is
  modelled in the `Except Unit` monad; functions whose source wraps a call
  in `try/except` discard the error accordingly.
* `_parse_product_data_from_text` assembles ~50 optional fields; the fields
  that the segmentation and assembly code reads or overwrites are embedded
  from their source extractors, and the remaining purely-optional fields
  (weight, colour, lot number, GTINs, image URLs, …) are supplied by an
  explicit `restFn` parameter.  All universal theorems quantify over
  `restFn`, so they hold in particular for the values computed by the
  omitted extractors; concrete evaluations instantiate `restFn` with the
  function returning no entries, which agrees with those extractors on the
  inputs used (none of their keyword patterns fire there).
-/

set_option maxRecDepth 4000

namespace Aiocr

/-- Python strings are modelled as lists of characters. -/
abbrev Str := List Char

/-- Coerce a Lean string literal to the model type. -/
def str (s : String) : Str := s.data

/-- Python `\s` / `str.strip()` whitespace class (the characters relevant
to the texts handled here: ASCII whitespace, NEL, NBSP and the ideographic
space). -/
def pyIsSpace (c : Char) : Bool :=
  c = ' ' || c = '\t' || c = '\n' || c = '\r' ||
  c.val = 0x0b || c.val = 0x0c || c.val = 0x85 || c.val = 0xa0 || c.val = 0x3000

/-- Python `\w` word-character class, restricted to the character ranges
occurring in this code base: ASCII alphanumerics, underscore, kana
(including the prolonged sound mark, excluding the katakana middle dot)
and CJK ideographs. -/
def isWordChar (c : Char) : Bool :=
  c.isAlphanum || c = '_' ||
  (0x3041 ≤ c.val && c.val ≤ 0x30ff && c.val ≠ 0x30fb) ||
  (0x4e00 ≤ c.val && c.val ≤ 0x9fff)

/-- Python `str.strip()`. -/
def pyStrip (s : Str) : Str :=
  ((s.dropWhile pyIsSpace).reverse.dropWhile pyIsSpace).reverse

/-- Python `str.split('\n')` (keeps empty fields). -/
def splitLines : Str → List Str
  | [] => [[]]
  | c :: t =>
    if c = '\n' then [] :: splitLines t
    else
      match splitLines t with
      | [] => [[c]]
      | l :: ls => (c :: l) :: ls

/-- Python `'\n'.join(lines)`. -/
def joinNl (ls : List Str) : Str :=
  match ls with
  | [] => []
  | [l] => l
  | l :: ls => l ++ '\n' :: joinNl ls

/-- Python `str.split()` (split on whitespace runs, no empty fields);
`fuel` is the length of the remaining input. -/
def splitWsAux : Nat → Str → List Str
  | 0, _ => []
  | _, [] => []
  | fuel + 1, c :: t =>
    if pyIsSpace c then splitWsAux fuel t
    else
      (c :: t).takeWhile (fun d => !pyIsSpace d) ::
        splitWsAux fuel (t.dropWhile (fun d => !pyIsSpace d))

/-- Python `str.split()`. -/
def splitWs (s : Str) : List Str := splitWsAux s.length s

/-- Python substring containment (`needle in hay`). -/
def containsSub (hay needle : Str) : Bool :=
  match hay with
  | [] => needle.isEmpty
  | _ :: t => needle.isPrefixOf hay || containsSub t needle

/-- Python `hay.find(needle)`: index of the first occurrence, `none` when
absent (the source only uses it after an `in` test). -/
def indexOfSub (hay needle : Str) : Option Nat :=
  match hay with
  | [] => if needle.isEmpty then some 0 else none
  | _ :: t =>
    if needle.isPrefixOf hay then some 0
    else (indexOfSub t needle).map (· + 1)

/-- Numeric value of a digit string (used for Python `int` on strings that
are known to consist of digits). -/
def natOfDigits (s : Str) : Nat :=
  s.foldl (fun a c => a * 10 + (c.toNat - '0'.toNat)) 0

/-- Python `int(s)` for strings of digits: raises on the empty string. -/
def pyInt (s : Str) : Except Unit Nat :=
  if s.isEmpty then .error () else .ok (natOfDigits s)

/-- Decimal rendering of a natural number (Python `str`/f-string). -/
def natToStr (n : Nat) : Str := (toString n).data

/-- Python `str.split(sep)` for a one-character separator (keeps empties). -/
def splitOnChar (sep : Char) : Str → List Str
  | [] => [[]]
  | c :: t =>
    if c = sep then [] :: splitOnChar sep t
    else
      match splitOnChar sep t with
      | [] => [[c]]
      | l :: ls => (c :: l) :: ls

/-! ## Scanner combinators

Executable models of the `re` operations used by the source.  A matcher
`Str → Option (α × Str)` tries to match at the beginning of its input and
returns the captured value together with the input following the whole
match.  `scanAll` is `re.findall` (leftmost, non-overlapping), `scanFirst`
is `re.search`.  All matchers used here consume at least one character on
success, so a fuel of the input length suffices. -/

/-- Consume a literal. -/
def matchLit : Str → Str → Option Str
  | [], s => some s
  | _ :: _, [] => none
  | c :: cs, d :: ds => if c = d then matchLit cs ds else none

/-- Consume a literal (given in lower case), ignoring ASCII case
(`re.IGNORECASE`). -/
def matchLitCI : Str → Str → Option Str
  | [], s => some s
  | _ :: _, [] => none
  | c :: cs, d :: ds => if c = d.toLower then matchLitCI cs ds else none

/-- Consume exactly `n` characters of class `p` (`p{n}`). -/
def takeCount (p : Char → Bool) : Nat → Str → Option (Str × Str)
  | 0, s => some ([], s)
  | _ + 1, [] => none
  | n + 1, c :: t =>
    if p c then (takeCount p n t).map (fun g => (c :: g.1, g.2)) else none

/-- Consume a maximal non-empty run of class `p` (`p+`). -/
def takePlus (p : Char → Bool) (s : Str) : Option (Str × Str) :=
  let g := s.takeWhile p
  if g.isEmpty then none else some (g, s.dropWhile p)

/-- `re.findall`: scan left to right, emitting each match's capture and
resuming after the match. -/
def scanAllAux (m : Str → Option (Str × Str)) : Nat → Str → List Str
  | 0, _ => []
  | _, [] => []
  | fuel + 1, c :: t =>
    match m (c :: t) with
    | some (g, rest) => g :: scanAllAux m fuel rest
    | none => scanAllAux m fuel t

/-- `re.findall` over a whole string. -/
def scanAll (m : Str → Option (Str × Str)) (s : Str) : List Str :=
  scanAllAux m s.length s

/-- `re.search`: value of the leftmost match. -/
def scanFirstAux (m : Str → Option α) : Nat → Str → Option α
  | 0, _ => none
  | _, [] => none
  | fuel + 1, c :: t =>
    match m (c :: t) with
    | some a => some a
    | none => scanFirstAux m fuel t

/-- `re.search` over a whole string. -/
def scanFirst (m : Str → Option α) (s : Str) : Option α :=
  scanFirstAux m s.length s

/-- Maximal runs of word characters.  A pattern bracketed by `\b` word
boundaries matches exactly the runs of the appropriate shape. -/
def wordRunsAux : Nat → Str → List Str
  | 0, _ => []
  | _, [] => []
  | fuel + 1, c :: t =>
    if isWordChar c then
      (c :: t).takeWhile isWordChar ::
        wordRunsAux fuel ((c :: t).dropWhile isWordChar)
    else wordRunsAux fuel t

/-- Maximal word-character runs of a string, in order. -/
def wordRuns (s : Str) : List Str := wordRunsAux s.length s

/-! ## Concrete pattern scanners (from the source regexes) -/

/-- A word run matching `\b(4\d{12})\b`. -/
def isJan13Run (r : Str) : Bool :=
  r.length = 13 && r.all Char.isDigit && r.head? = some '4'

/-- `re.findall(r'\b(4\d{12})\b', s)`. -/
def findallJan13 (s : Str) : List Str := (wordRuns s).filter isJan13Run

/-- `re.search(r'\b(4\d{12})\b', s)` (first match). -/
def searchJan13 (s : Str) : Option Str := (findallJan13 s).head?

/-- Matcher for `4970381-(\d{6})` (capture: the six digits). -/
def matchHyphenJan (s : Str) : Option (Str × Str) := do
  let r ← matchLit (str "4970381-") s
  takeCount Char.isDigit 6 r

/-- `re.findall(r'4970381-(\d{6})', s)`. -/
def findallHyphenJan (s : Str) : List Str := scanAll matchHyphenJan s

/-- Matcher for `ST-\d{2}[A-Z]{2}` (capture: the whole match). -/
def matchSTCode (s : Str) : Option (Str × Str) := do
  let r ← matchLit (str "ST-") s
  let (d, r) ← takeCount Char.isDigit 2 r
  let (u, r) ← takeCount Char.isUpper 2 r
  pure (str "ST-" ++ d ++ u, r)

/-- `re.findall(r'ST-\d{2}[A-Z]{2}', s)`. -/
def findallSTCode (s : Str) : List Str := scanAll matchSTCode s

/-- Matcher for `ST-\w+` (capture: the whole match). -/
def matchSTWord (s : Str) : Option (Str × Str) := do
  let r ← matchLit (str "ST-") s
  let (g, r) ← takePlus isWordChar r
  pure (str "ST-" ++ g, r)

/-- `re.findall(r'ST-\w+', s)`. -/
def findallSTWord (s : Str) : List Str := scanAll matchSTWord s

/-- Matcher for `EN-\d+` (capture: the whole match). -/
def matchENNum (s : Str) : Option (Str × Str) := do
  let r ← matchLit (str "EN-") s
  let (g, r) ← takePlus Char.isDigit r
  pure (str "EN-" ++ g, r)

/-- `re.findall(r'EN-\d+', s)`. -/
def findallENNum (s : Str) : List Str := scanAll matchENNum s

/-- Matcher for `pre(\d+)post` (capture: the numeric value), as in
`全(\d+)種類`. -/
def matchNumBetween (pre post : Str) (s : Str) : Option (Nat × Str) := do
  let r ← matchLit pre s
  let (g, r) ← takePlus Char.isDigit r
  let r ← matchLit post r
  pure (natOfDigits g, r)

/-- `re.search(r'pre(\d+)post', s)`: numeric value of the first match. -/
def searchNumBetween (pre post : Str) (s : Str) : Option Nat :=
  scanFirst (fun t => (matchNumBetween pre post t).map (·.1)) s

/-- The character class `[：:\s]` used between a label and its value. -/
def colonSpaceClass (c : Char) : Bool := c = '：' || c = ':' || pyIsSpace c

/-- The class `[0-9,]`. -/
def isNumComma (c : Char) : Bool := c.isDigit || c = ','

/-- Matcher for `kw[：:\s]*¥?(cls+)` with optional currency sign
(`allowYen`), as in `価格[：:\s]*¥?([0-9,]+)` and `在庫[：:\s]*(\d+)`. -/
def matchKwColonNum (kw : Str) (allowYen : Bool) (cls : Char → Bool)
    (s : Str) : Option (Str × Str) := do
  let r ← matchLit kw s
  let r := r.dropWhile colonSpaceClass
  let r := if allowYen then (match r with | '¥' :: t => t | _ => r) else r
  takePlus cls r

/-- Matcher for `¥\s*([0-9,]+)`. -/
def matchYenNum (s : Str) : Option (Str × Str) := do
  let r ← matchLit (str "¥") s
  takePlus isNumComma (r.dropWhile pyIsSpace)

/-- Matcher for `([0-9,]+)\s*円`. -/
def matchNumYen (s : Str) : Option (Str × Str) := do
  let (g, r) ← takePlus isNumComma s
  let r ← matchLit (str "円") (r.dropWhile pyIsSpace)
  pure (g, r)

/-- The class `[コード：:\s]` of `JAN[コード：:\s]*`. -/
def janKwClass (c : Char) : Bool :=
  c = 'コ' || c = 'ー' || c = 'ド' || colonSpaceClass c

/-- Matcher for `(4\d{12})` (no word boundary). -/
def match4d13 (s : Str) : Option (Str × Str) := do
  let (g, r) ← takeCount Char.isDigit 13 s
  if g.head? = some '4' then pure (g, r) else none

/-- Matcher for `(\d{13})`. -/
def matchD13 (s : Str) : Option (Str × Str) := takeCount Char.isDigit 13 s

/-- Matcher for `(4970381\d{6})`. -/
def matchEnsky13 (s : Str) : Option (Str × Str) := do
  let r ← matchLit (str "4970381") s
  let (g, r) ← takeCount Char.isDigit 6 r
  pure (str "4970381" ++ g, r)

/-- Matcher for `4970381[-\s]?(\d{6})` (optional separator, greedy). -/
def matchEnskySep6 (s : Str) : Option (Str × Str) := do
  let r ← matchLit (str "4970381") s
  match r with
  | c :: t =>
    if c = '-' || pyIsSpace c then
      match takeCount Char.isDigit 6 t with
      | some gr => some gr
      | none => takeCount Char.isDigit 6 r
    else takeCount Char.isDigit 6 r
  | [] => none

/-- Matcher for `kw[コード：:\s]*(4\d{12})` as in `JAN[コード：:\s]*(4\d{12})`. -/
def matchJanKw (kw : Str) (s : Str) : Option (Str × Str) := do
  let r ← matchLit kw s
  match4d13 (r.dropWhile janKwClass)

/-- Matcher for `単品\s*JAN[コード：:\s]*(4\d{12})`. -/
def matchTanpinJan (s : Str) : Option (Str × Str) := do
  let r ← matchLit (str "単品") s
  matchJanKw (str "JAN") (r.dropWhile pyIsSpace)

/-- The class `[^\n\r]`. -/
def notNlCr (c : Char) : Bool := c ≠ '\n' && c ≠ '\r'

/-- Matcher for `kw[：:\s]*([^\n\r]+)` (rest-of-line captures). -/
def matchKwLine (kw : Str) (s : Str) : Option (Str × Str) := do
  let r ← matchLit kw s
  takePlus notNlCr (r.dropWhile colonSpaceClass)

/-- Case-insensitive variant of `matchKwLine` (keyword in lower case). -/
def matchKwLineCI (kw : Str) (s : Str) : Option (Str × Str) := do
  let r ← matchLitCI kw s
  takePlus notNlCr (r.dropWhile colonSpaceClass)

/-- `kw[：:\s]*` followed by an inner matcher (for the labelled code
patterns of `_extract_sku`). -/
def kwThen (kw : Str) (inner : Str → Option (Str × Str)) (s : Str) :
    Option (Str × Str) := do
  let r ← matchLit kw s
  inner (r.dropWhile colonSpaceClass)

/-- Python truthiness of an optional string (`if value:`): the empty
string is falsy. -/
def pyTruthyStr : Option Str → Option Str
  | some s => if s.isEmpty then none else some s
  | none => none

/-- `'、'.join`-style joining with a separator. -/
def joinSep (sep : Str) : List Str → Str
  | [] => []
  | [x] => x
  | x :: xs => x ++ sep ++ joinSep sep xs

/-! ## Field extractors (`openai_ocr_service.py`)

Each `extract_*` definition below is the embedding of the source method
`_extract_*` of `OpenAIOCRService`, with its regex cascade transcribed
pattern by pattern in source order. -/

/-- Candidate JAN strings of `_extract_jan_code`, produced by its eight
13-digit patterns in source order (`\b(4\d{12})\b`, `(4970381\d{6})`,
`4970381[-\s]?(\d{6})`, four labelled variants, `(\d{13})`). -/
def jan13Candidates (raw : Str) : List Str :=
  findallJan13 raw ++
  scanAll matchEnsky13 raw ++
  scanAll matchEnskySep6 raw ++
  scanAll (matchJanKw (str "JAN")) raw ++
  scanAll matchTanpinJan raw ++
  scanAll (matchJanKw (str "コード")) raw ++
  scanAll (matchJanKw (str "バーコード")) raw ++
  scanAll matchD13 raw

/-- The validation applied to each candidate in `_extract_jan_code`:
13 digits and a recognized prefix (`4`, or the dead `49`/`45` branch). -/
def janValid (j : Str) : Bool :=
  j.length = 13 && j.all Char.isDigit &&
    (j.head? = some '4' ||
      (str "49").isPrefixOf j || (str "45").isPrefixOf j)

/-- Matcher for `kw[コード：:\s]*(\d{8})`. -/
def matchKw8 (kw : Str) (s : Str) : Option (Str × Str) := do
  let r ← matchLit kw s
  takeCount Char.isDigit 8 (r.dropWhile janKwClass)

/-- `_extract_jan_code`: thirteen-digit cascade, then the 8-digit
patterns, then the `\b(\d{13})\b` fallback. -/
def extract_jan_code (raw : Str) : Option Str :=
  match (jan13Candidates raw).find? janValid with
  | some j => some j
  | none =>
    match (wordRuns raw).find?
        (fun r => r.length = 8 && r.all Char.isDigit) with
    | some j => some j
    | none =>
      match scanFirst (matchKw8 (str "短縮")) raw with
      | some (g, _) => some g
      | none =>
        match scanFirst (matchKw8 (str "8桁")) raw with
        | some (g, _) => some g
        | none =>
          ((wordRuns raw).filter
              (fun r => r.length = 13 && r.all Char.isDigit)).find?
            (fun n => n.head? = some '4' ||
              (str "49").isPrefixOf n || (str "45").isPrefixOf n)

/-- The price candidates of `_extract_price`, in conversion order:
`¥\s*([0-9,]+)` matches first, then the four labelled patterns, then
`([0-9,]+)\s*円`. -/
def priceCandidates (raw : Str) : List Str :=
  scanAll matchYenNum raw ++
  scanAll (matchKwColonNum (str "価格") true isNumComma) raw ++
  scanAll (matchKwColonNum (str "値段") true isNumComma) raw ++
  scanAll (matchKwColonNum (str "定価") true isNumComma) raw ++
  scanAll (matchKwColonNum (str "税込") true isNumComma) raw ++
  scanAll matchNumYen raw

/-- The conversion loop of `_extract_price`: `int(price_str.replace(',', ''))`
raises `ValueError` on a comma-only candidate; a value inside the
plausibility bound `[50, 100000]` is returned as `¥` + the raw match. -/
def tryPriceCands : List Str → Except Unit (Option Str)
  | [] => .ok none
  | c :: rest =>
    match pyInt (c.filter (fun d => d ≠ ',')) with
    | .error _ => .error ()
    | .ok v =>
      if 50 ≤ v && v ≤ 100000 then .ok (some ('¥' :: c))
      else tryPriceCands rest

/-- `_extract_price`. -/
def extract_price (raw : Str) : Except Unit (Option Str) :=
  tryPriceCands (priceCandidates raw)

/-- Case-insensitive labelled-number matcher (for the `stock`/`qty`
patterns, keyword given in lower case). -/
def matchKwColonNumCI (kw : Str) (s : Str) : Option (Str × Str) := do
  let r ← matchLitCI kw s
  takePlus Char.isDigit (r.dropWhile colonSpaceClass)

/-- `_extract_stock`: first matching pattern wins, value converted with
`int` (digits, cannot raise). -/
def extract_stock (raw : Str) : Option Nat :=
  ([ matchKwColonNum (str "在庫") false Char.isDigit
   , matchKwColonNum (str "数量") false Char.isDigit
   , matchKwColonNum (str "残り") false Char.isDigit
   , matchKwColonNumCI (str "stock")
   , matchKwColonNumCI (str "qty") ].findSome?
    (fun m => (scanFirst m raw).map (fun g => natOfDigits g.1)))

/-- The keyword table of `_extract_category`. -/
def categoryKeywordTable : List (Str × List Str) :=
  [ (str "フィギュア", [str "フィギュア", str "figure", str "ねんどろいど"])
  , (str "ゲーム", [str "ゲーム", str "game", str "ソフト"])
  , (str "アニメグッズ", [str "アニメ", str "キャラクター", str "anime"])
  , (str "本・雑誌", [str "本", str "雑誌", str "book", str "magazine"])
  , (str "音楽", [str "CD", str "DVD", str "ブルーレイ", str "サウンドトラック"]) ]

/-- `_extract_category`: labelled patterns, the trading-goods special
case, then the keyword table. -/
def extract_category (raw : Str) : Option Str :=
  match scanFirst (matchKwLine (str "カテゴリ")) raw with
  | some (g, _) => some (pyStrip g)
  | none =>
  match scanFirst (matchKwLine (str "分類")) raw with
  | some (g, _) => some (pyStrip g)
  | none =>
  match scanFirst (matchKwLine (str "ジャンル")) raw with
  | some (g, _) => some (pyStrip g)
  | none =>
    let trading : Option Str :=
      if containsSub raw (str "トレーディング") then
        if containsSub raw (str "カード") then some (str "トレーディングカード")
        else if [str "バッジ", str "缶バッジ", str "グッズ"].any
            (containsSub raw) then
          some (str "トレーディンググッズ")
        else none
      else none
    match trading with
    | some c => some c
    | none =>
      (categoryKeywordTable.find?
          (fun kv => kv.2.any (containsSub raw))).map (·.1)

/-- `\d{1,2}` (greedy) followed by a literal. -/
def takeD12Then (post : Str) (s : Str) : Option (Str × Str) :=
  match takeCount Char.isDigit 2 s with
  | some (g, r) =>
    match matchLit post r with
    | some r2 => some (g, r2)
    | none =>
      match takeCount Char.isDigit 1 s with
      | some (g1, r1) => (matchLit post r1).map (fun r2 => (g1, r2))
      | none => none
  | none =>
    match takeCount Char.isDigit 1 s with
    | some (g1, r1) => (matchLit post r1).map (fun r2 => (g1, r2))
    | none => none

/-- Trailing `(\d{1,2})` (greedy, nothing after it). -/
def takeD12End (s : Str) : Option (Str × Str) :=
  takeCount Char.isDigit 2 s <|> takeCount Char.isDigit 1 s

/-- `(\d{4})年(\d{1,2})月(\d{1,2})日`. -/
def matchDateYmdJp (s : Str) : Option (List Str × Str) := do
  let (y, r) ← takeCount Char.isDigit 4 s
  let r ← matchLit (str "年") r
  let (m, r) ← takeD12Then (str "月") r
  let (d, r) ← takeD12Then (str "日") r
  pure ([y, m, d], r)

/-- `(\d{4})年(\d{1,2})月`. -/
def matchDateYmJp (s : Str) : Option (List Str × Str) := do
  let (y, r) ← takeCount Char.isDigit 4 s
  let r ← matchLit (str "年") r
  let (m, r) ← takeD12End r
  pure ([y, m], r)

/-- `(\d{4})/(\d{1,2})/(\d{1,2})`. -/
def matchDateSlash (s : Str) : Option (List Str × Str) := do
  let (y, r) ← takeCount Char.isDigit 4 s
  let r ← matchLit (str "/") r
  let (m, r) ← takeD12Then (str "/") r
  let (d, r) ← takeD12End r
  pure ([y, m, d], r)

/-- `(\d{4})-(\d{1,2})-(\d{1,2})`. -/
def matchDateDash (s : Str) : Option (List Str × Str) := do
  let (y, r) ← takeCount Char.isDigit 4 s
  let r ← matchLit (str "-") r
  let (m, r) ← takeD12Then (str "-") r
  let (d, r) ← takeD12End r
  pure ([y, m, d], r)

/-- `(\d{1,2})/(\d{1,2})/(\d{4})` (groups kept positionally, as the
source unpacks them into `year, month, day`). -/
def matchDateMdy (s : Str) : Option (List Str × Str) := do
  let (a, r) ← takeD12Then (str "/") s
  let (b, r) ← takeD12Then (str "/") r
  let (y, r) ← takeCount Char.isDigit 4 r
  pure ([a, b, y], r)

/-- The five date patterns of `_extract_release_date`, in source order;
each entry is `re.search` of one pattern, yielding the group list. -/
def datePatternList : List (Str → Option (List Str)) :=
  [ scanFirst (fun s => (matchDateYmdJp s).map (·.1))
  , scanFirst (fun s => (matchDateYmJp s).map (·.1))
  , scanFirst (fun s => (matchDateSlash s).map (·.1))
  , scanFirst (fun s => (matchDateDash s).map (·.1))
  , scanFirst (fun s => (matchDateMdy s).map (·.1)) ]

/-- The date formatting of `_extract_release_date`
(`f"{year}年{int(month)}月{int(day)}日"`). -/
def formatDateGroups (gs : List Str) : Option Str :=
  match gs with
  | [y, m, d] =>
    some (y ++ str "年" ++ natToStr (natOfDigits m) ++ str "月" ++
      natToStr (natOfDigits d) ++ str "日")
  | [y, m] =>
    some (y ++ str "年" ++ natToStr (natOfDigits m) ++ str "月")
  | _ => none

/-- The global-fallback plausibility check of `_extract_release_date`
(`2020 <= year <= 2030 and 1 <= month <= 12`). -/
def dateGroupsValid (gs : List Str) : Bool :=
  match gs with
  | [y, m, _] =>
    2020 ≤ natOfDigits y && natOfDigits y ≤ 2030 &&
      1 ≤ natOfDigits m && natOfDigits m ≤ 12
  | [y, m] =>
    2020 ≤ natOfDigits y && natOfDigits y ≤ 2030 &&
      1 ≤ natOfDigits m && natOfDigits m ≤ 12
  | _ => false

/-- The release-date keywords, in priority order. -/
def releaseKeywordList : List Str :=
  [ str "発売予定日", str "発売日", str "発売予定", str "発売開始日"
  , str "リリース日", str "発売", str "販売開始", str "予定日", str "発売時期" ]

/-- The keyword-proximity pass of `_extract_release_date`: around the
first occurrence of each keyword, the slice `raw[max(0,ki-50):ki+100]`
is searched with each date pattern. -/
def releaseFromKeywords (raw : Str) : List Str → Option Str
  | [] => none
  | kw :: rest =>
    if containsSub raw kw then
      let ki := (indexOfSub raw kw).getD 0
      let surrounding := (raw.take (ki + 100)).drop (ki - 50)
      match datePatternList.findSome? (fun p => p surrounding) with
      | some gs => formatDateGroups gs
      | none => releaseFromKeywords raw rest
    else releaseFromKeywords raw rest

/-- `_extract_release_date`. -/
def extract_release_date (raw : Str) : Option Str :=
  match releaseFromKeywords raw releaseKeywordList with
  | some d => some d
  | none =>
    datePatternList.findSome? (fun p =>
      match p raw with
      | some gs => if dateGroupsValid gs then formatDateGroups gs else none
      | none => none)

/-- The noise list of `_extract_brand`. -/
def brandNoiseList : List Str :=
  [ str "オンラインショップ", str "アニメイトカフェスタンド", str "通販"
  , str "海外店舗", str "animatecafe", str "online", str "shop", str "store" ]

/-- The known-brand list of `_extract_brand`, in priority order. -/
def knownBrandList : List Str :=
  [ str "エンスカイ", str "ENSKY", str "バンダイ", str "BANDAI"
  , str "タカラトミー", str "TAKARA TOMY", str "コナミ", str "KONAMI"
  , str "セガ", str "SEGA", str "スクウェア・エニックス", str "SQUARE ENIX"
  , str "グッドスマイルカンパニー", str "Good Smile Company"
  , str "コトブキヤ", str "KOTOBUKIYA", str "メディコス", str "MEDICOS"
  , str "フリュー", str "FuRyu", str "アルター", str "ALTER"
  , str "アニメイト", str "animate" ]

/-- Python `min(xs, key=len)`: first element of minimal length. -/
def minByLenFirst : List Str → Option Str :=
  List.foldl
    (fun acc c =>
      match acc with
      | none => some c
      | some b => if c.length < b.length then some c else some b)
    none

/-- First pair with minimal second component (stable ascending sort
followed by taking the head). -/
def minBySndFirst : List (Str × Nat) → Option (Str × Nat) :=
  List.foldl
    (fun acc c =>
      match acc with
      | none => some c
      | some b => if c.2 < b.2 then some c else some b)
    none

/-- First pair with maximal second component (stable descending sort
followed by taking the head). -/
def maxBySndFirst : List (Str × Nat) → Option (Str × Nat) :=
  List.foldl
    (fun acc c =>
      match acc with
      | none => some c
      | some b => if c.2 > b.2 then some c else some b)
    none

/-- The labelled-pattern pass of `_extract_brand`: first pattern whose
stripped capture is noise-free and shorter than 50. -/
def brandPatternLoop (raw : Str) :
    List (Str → Option (Str × Str)) → Option Str
  | [] => none
  | m :: rest =>
    match scanFirst m raw with
    | some (g, _) =>
      let bt := pyStrip g
      if !brandNoiseList.any (containsSub bt) && bt.length < 50 then some bt
      else brandPatternLoop raw rest
    | none => brandPatternLoop raw rest

/-- `_extract_brand`. -/
def extract_brand (raw : Str) (lines : List Str) : Option Str :=
  match brandPatternLoop raw
      [ matchKwLine (str "ブランド"), matchKwLine (str "メーカー")
      , matchKwLineCI (str "brand"), matchKwLine (str "製造元")
      , matchKwLine (str "発売元") ] with
  | some b => some b
  | none =>
    let found := knownBrandList.foldl
      (fun acc brand =>
        if containsSub raw brand then
          let ctxs := (lines.filter (fun l =>
            containsSub l brand && !brandNoiseList.any (containsSub l) &&
              l.length < 100)).map pyStrip
          match minByLenFirst ctxs with
          | some best =>
            if best.length < 50 then acc ++ [(brand, best.length)] else acc
          | none => acc
        else acc)
      []
    (minBySndFirst found).map (·.1)

/-- `_extract_manufacturer`: labelled patterns, then the brand value
(with Python truthiness on the string). -/
def extract_manufacturer (raw : Str) (brand : Option Str) : Option Str :=
  match scanFirst (matchKwLine (str "製造元")) raw with
  | some (g, _) => some (pyStrip g)
  | none =>
  match scanFirst (matchKwLine (str "発売元")) raw with
  | some (g, _) => some (pyStrip g)
  | none =>
  match scanFirst (matchKwLine (str "販売元")) raw with
  | some (g, _) => some (pyStrip g)
  | none =>
  match scanFirst (matchKwLineCI (str "manufacturer")) raw with
  | some (g, _) => some (pyStrip g)
  | none =>
    match brand with
    | some b => if b.isEmpty then none else some b
    | none => none

/-- Leftmost match of an ordered alternation of literals. -/
def searchAlt (ws : List Str) (s : Str) : Option Str :=
  scanFirst
    (fun t => ws.findSome? (fun w => if w.isPrefixOf t then some w else none)) s

/-- `約\s*(\d+)\s*×\s*(\d+)\s*×\s*(\d+)\s*mm`. -/
def matchApproxSize3 (s : Str) : Option ((Str × Str × Str) × Str) := do
  let r ← matchLit (str "約") s
  let (a, r) ← takePlus Char.isDigit (r.dropWhile pyIsSpace)
  let r ← matchLit (str "×") (r.dropWhile pyIsSpace)
  let (b, r) ← takePlus Char.isDigit (r.dropWhile pyIsSpace)
  let r ← matchLit (str "×") (r.dropWhile pyIsSpace)
  let (c, r) ← takePlus Char.isDigit (r.dropWhile pyIsSpace)
  let r ← matchLit (str "mm") (r.dropWhile pyIsSpace)
  pure ((a, b, c), r)

/-- The character pass of the description generator (first the 5-name
alternation, then `ポケモン`). -/
def descCharacter (raw : Str) : Option Str :=
  match searchAlt
      [ str "ピカチュウ", str "イーブイ", str "ハリマロン"
      , str "フォッコ", str "ケロマツ" ] raw with
  | some c => some c
  | none =>
    if containsSub raw (str "ポケモン") then some (str "ポケモン") else none

/-- The item-type pass of the description generator. -/
def descItemType (raw : Str) : Option Str :=
  match searchAlt [str "コインバンク", str "貯金箱"] raw with
  | some i => some i
  | none =>
    [str "フィギュア", str "ぬいぐるみ", str "トレーディング"
    , str "カード", str "グッズ"].find? (containsSub raw)

/-- The feature-collection fallback of `_extract_description`, including
its final unconditional fallback text. -/
def descFeatures (raw : Str) : Str :=
  let sizeF : List Str :=
    match scanFirst (fun s => (matchApproxSize3 s).map (·.1)) raw with
    | some (a, b, c) =>
      [str "サイズ: 約" ++ a ++ str "×" ++ b ++ str "×" ++ c ++ str "mm"]
    | none => []
  let matF : List Str :=
    match scanFirst (matchKwLine (str "素材")) raw with
    | some (g, _) =>
      let m := pyStrip g
      if m.length < 50 then [str "素材: " ++ m] else []
    | none =>
      match scanFirst (matchKwLine (str "材質")) raw with
      | some (g, _) =>
        let m := pyStrip g
        if m.length < 50 then [str "素材: " ++ m] else []
      | none => []
  let priceF : List Str :=
    match scanFirst matchYenNum raw with
    | some (g, _) => [str "希望小売価格: ¥" ++ g]
    | none => []
  let features := sizeF ++ matF ++ priceF
  if features ≠ [] then
    str "商品の詳細情報: " ++ joinSep (str "、") (features.take 3)
  else if containsSub raw (str "ポケモン") then
    if containsSub raw (str "コインバンク") || containsSub raw (str "貯金箱") then
      str "ポケモンの貯金箱です。可愛いデザインでお金を貯めながらインテリアとしても楽しめます。"
    else if containsSub raw (str "フィギュア") then
      str "ポケモンのフィギュアです。精巧な作りでコレクションやディスプレイに最適です。"
    else
      str "ポケモン関連の商品です。ファンの方におすすめのアイテムです。"
  else if containsSub raw (str "アニメ") || containsSub raw (str "キャラクター") then
    str "キャラクターグッズです。ファンの方におすすめのコレクションアイテムです。"
  else
    str "商品の詳細については商品名やカテゴリをご参照ください。"

/-- The direct-pattern loop of `_extract_description`: a capture is
returned only when its stripped length is in `(10, 200)`, otherwise the
next pattern is tried. -/
def descDirectLoop (raw : Str) :
    List (Str → Option (Str × Str)) → Option Str
  | [] => none
  | m :: rest =>
    match scanFirst m raw with
    | some (g, _) =>
      let d := pyStrip g
      if 10 < d.length && d.length < 200 then some d
      else descDirectLoop raw rest
    | none => descDirectLoop raw rest

/-- `_extract_description`: direct patterns, name-derived generation,
then `descFeatures`; total by the final fallback. -/
def extract_description (raw : Str) : Str :=
  match descDirectLoop raw
      [ matchKwLine (str "商品説明"), matchKwLine (str "詳細")
      , matchKwLine (str "Description") ] with
  | some d => d
  | none => descFromName raw
where
  /-- The name-derived branch (runs when a `商品名` label is present) and
  the fall-through to `descFeatures`. -/
  descFromName (raw : Str) : Str :=
    match scanFirst (matchKwLine (str "商品名")) raw with
    | some _ =>
      let character := (descCharacter raw).getD []
      let item := (descItemType raw).getD []
      if !character.isEmpty && !item.isEmpty then
        if item = str "コインバンク" || item = str "貯金箱" then
          character ++ str "の可愛い貯金箱です。インテリアとしても楽しめます。"
        else if item = str "フィギュア" then
          character ++ str "のフィギュアです。コレクションやディスプレイに最適。"
        else if item = str "ぬいぐるみ" then
          character ++ str "のぬいぐるみです。柔らかく抱き心地抜群。"
        else
          character ++ str "の" ++ item ++ str "です。"
      else if !character.isEmpty then
        character ++ str "関連グッズです。"
      else if !item.isEmpty then
        item ++ str "アイテムです。"
      else descFeatures raw
    | none => descFeatures raw

/-- `(ST-\d{2}[A-Z]{2})` with `re.IGNORECASE`; the capture is the
original text of the match. -/
def matchSTCodeCI (s : Str) : Option (Str × Str) := do
  let r ← matchLitCI (str "st-") s
  let (_, r) ← takeCount Char.isDigit 2 r
  let (_, r) ← takeCount Char.isAlpha 2 r
  pure (s.take 7, r)

/-- `(ST-\d{2}[A-Z]\d)` with `re.IGNORECASE`. -/
def matchSTCodeDigCI (s : Str) : Option (Str × Str) := do
  let r ← matchLitCI (str "st-") s
  let (_, r) ← takeCount Char.isDigit 2 r
  let (_, r) ← takeCount Char.isAlpha 1 r
  let (_, r) ← takeCount Char.isDigit 1 r
  pure (s.take 7, r)

/-- `(EN-\d{3,4}[A-Z]*)` with `re.IGNORECASE`. -/
def matchENCI (s : Str) : Option (Str × Str) := do
  let r ← matchLitCI (str "en-") s
  let (d, r) ← takeCount Char.isDigit 4 r <|> takeCount Char.isDigit 3 r
  let a := r.takeWhile Char.isAlpha
  pure (s.take (3 + d.length + a.length), r.dropWhile Char.isAlpha)

/-- `([A-Z]{2,4}-\d{2,4}[A-Z]*)` with `re.IGNORECASE` (greedy with
backtracking on the letter count). -/
def matchGenCodeCI (s : Str) : Option (Str × Str) :=
  genAt 4 <|> genAt 3 <|> genAt 2
where
  genAt (k : Nat) : Option (Str × Str) := do
    let (_, r) ← takeCount Char.isAlpha k s
    let r ← matchLit (str "-") r
    let (d, r) ← takeCount Char.isDigit 4 r <|> takeCount Char.isDigit 3 r <|>
      takeCount Char.isDigit 2 r
    let a := r.takeWhile Char.isAlpha
    pure (s.take (k + 1 + d.length + a.length), r.dropWhile Char.isAlpha)

/-- `([A-Z]{2}-\d{2}[A-Z]{2})` with `re.IGNORECASE`. -/
def matchXx2Code (s : Str) : Option (Str × Str) := do
  let (_, r) ← takeCount Char.isAlpha 2 s
  let r ← matchLit (str "-") r
  let (_, r) ← takeCount Char.isDigit 2 r
  let (_, r) ← takeCount Char.isAlpha 2 r
  pure (s.take 7, r)

/-- `([A-Z]{3}-\d{3,4})` with `re.IGNORECASE`. -/
def matchXxx3Code (s : Str) : Option (Str × Str) := do
  let (_, r) ← takeCount Char.isAlpha 3 s
  let r ← matchLit (str "-") r
  let (d, r) ← takeCount Char.isDigit 4 r <|> takeCount Char.isDigit 3 r
  pure (s.take (4 + d.length), r)

/-- `Product\s*Code[：:\s]*(...)` with `re.IGNORECASE`. -/
def matchProductCodeKw (inner : Str → Option (Str × Str)) (s : Str) :
    Option (Str × Str) := do
  let r ← matchLitCI (str "product") s
  let r ← matchLitCI (str "code") (r.dropWhile pyIsSpace)
  inner (r.dropWhile colonSpaceClass)

/-- `SKU[：:\s]*(...)` with `re.IGNORECASE`. -/
def matchSkuKw (inner : Str → Option (Str × Str)) (s : Str) :
    Option (Str × Str) := do
  let r ← matchLitCI (str "sku") s
  inner (r.dropWhile colonSpaceClass)

/-- `EN-\d{3,4}[A-Z]*` (case-sensitive, for the final fallback of
`_extract_sku`). -/
def matchENPlain (s : Str) : Option (Str × Str) := do
  let r ← matchLit (str "EN-") s
  let (d, r) ← takeCount Char.isDigit 4 r <|> takeCount Char.isDigit 3 r
  let a := r.takeWhile Char.isUpper
  pure (str "EN-" ++ d ++ a, r.dropWhile Char.isUpper)

/-- All candidates of the 14 sku patterns of `_extract_sku`, in source
order. -/
def skuPatternCandidates (raw : Str) : List Str :=
  scanAll matchSTCodeCI raw ++
  scanAll matchSTCodeDigCI raw ++
  scanAll (kwThen (str "品番") matchSTCodeCI) raw ++
  scanAll (kwThen (str "商品コード") matchSTCodeCI) raw ++
  scanAll (kwThen (str "コード") matchSTCodeCI) raw ++
  scanAll matchENCI raw ++
  scanAll (kwThen (str "品番") matchENCI) raw ++
  scanAll (kwThen (str "商品コード") matchENCI) raw ++
  scanAll (kwThen (str "品番") matchGenCodeCI) raw ++
  scanAll (kwThen (str "商品コード") matchGenCodeCI) raw ++
  scanAll (matchSkuKw matchGenCodeCI) raw ++
  scanAll (matchProductCodeKw matchGenCodeCI) raw ++
  scanAll matchXx2Code raw ++
  scanAll matchXxx3Code raw

/-- `_extract_sku`: the upper-cased first candidate that passes the
length/hyphen plausibility check, else the first plain `ST-` code, else
the first plain `EN-` code. -/
def extract_sku (raw : Str) : Option Str :=
  match (skuPatternCandidates raw).find? (fun m =>
      let sku := m.map Char.toUpper
      5 ≤ sku.length && sku.length ≤ 10 && sku.contains '-') with
  | some m => some (m.map Char.toUpper)
  | none =>
    match (findallSTCode raw).head? with
    | some st => some st
    | none => (scanAll matchENPlain raw).head?

/-- The noise list of `_extract_product_name`. -/
def productNameNoise : List Str :=
  [ str "オンラインショップ", str "アニメイトカフェスタンド", str "通販"
  , str "海外店舗", str "animatecafe", str "online", str "shop", str "store"
  , str "www.", str "http", str "※", str "注意", str "警告"
  , str "copyright", str "©", str "reserved" ]

/-- The pipe-separated-cell adjustment of `_extract_product_name`. -/
def pipeAdjust (line : Str) : Str :=
  if containsSub line (str "|") then
    let parts := ((splitOnChar '|' line).map pyStrip).filter (fun p => !p.isEmpty)
    if parts.isEmpty then line
    else
      match parts.find? (fun p => !(findallENNum p).isEmpty && 10 < p.length) with
      | some p => p
      | none => ((parts.find? (fun p => 10 < p.length)).getD (parts.headD line))
  else line

/-- The repeated-word test `is_repetitive_text` of
`_extract_product_name`. -/
def isRepetitiveText (text : Str) : Bool :=
  if text.length < 10 then false
  else
    let words := splitWs text
    if 6 < words.length then
      let longs := words.filter (fun w => 3 < w.length)
      longs.any (fun w => 3 ≤ longs.count w)
    else false

/-- The scoring of one candidate line in `_extract_product_name`. -/
def productNameScore (line : Str) : Nat :=
  (if !(scanAll matchSTWord line).isEmpty then 15 else 0) +
  (if !(findallENNum line).isEmpty then 15 else 0) +
  (if containsSub line (str "ポケモン") &&
      [str "コインバンク", str "フィギュア", str "ぬいぐるみ", str "カード"].any
        (containsSub line) then 12 else 0) +
  (if [str "キャラクター", str "スリーブ", str "甘神さん", str "の縁結び"].any
      (containsSub line) then 12 else 0) +
  (if containsSub line (str "トレーディング") &&
      [str "バッジ", str "カード", str "キャラ", str "フィギュア"].any
        (containsSub line) then 10 else 0) +
  (if [str "ver.", str "version", str "vol.", str "v."].any
      (containsSub (line.map Char.toLower)) then 8 else 0) +
  (if containsSub line (str "全") && containsSub line (str "種") then 8 else 0) +
  ([str "限定", str "セット", str "パック", str "ボックス", str "コレクション"
   , str "シリーズ", str "初回"].foldl
    (fun sc kw => if containsSub line kw then sc + 3 else sc) 0) +
  (if 10 ≤ line.length && line.length ≤ 50 then 2 else 0) +
  (if !(line.take 3).any Char.isDigit then 1 else 0)

/-- `_extract_product_name` over its `text_lines` argument: cleaned and
scored candidates, highest score first (stable). -/
def extract_product_name_lines (text_lines : List Str) : Option Str :=
  let cands := text_lines.foldl
    (fun acc l0 =>
      let line := pipeAdjust (pyStrip l0)
      if line.length < 5 || 200 < line.length then acc
      else if productNameNoise.any (containsSub line) then acc
      else if isRepetitiveText line then acc
      else
        let sc := productNameScore line
        if 0 < sc then acc ++ [(line, sc)] else acc)
    []
  (maxBySndFirst cands).map (·.1)

/-- The call made by `_parse_product_data_from_text`: the arguments are
passed in swapped order, so the `text_lines` parameter receives the raw
string and iterating over it yields its characters as one-character
lines. -/
def extract_product_name_swapped (raw : Str) : Option Str :=
  extract_product_name_lines (raw.map (fun c => [c]))

/-! ## Static code-identity tables (`openai_ocr_service.py`) -/

/-- The dict of `_get_jan_code_for_st_code` (code → canonical barcode). -/
def stJanPairs : List (Str × Str) :=
  [ (str "ST-03CB", str "4970381804220")
  , (str "ST-04CB", str "4970381804213")
  , (str "ST-05CB", str "4970381804206")
  , (str "ST-06CB", str "4970381804199")
  , (str "ST-07CB", str "4970381804182")
  , (str "ST-08CB", str "4970381804237")
  , (str "ST-09CB", str "4970381804234")
  , (str "ST-10CB", str "4970381804175")
  , (str "ST-11CB", str "4970381804168")
  , (str "ST-12CB", str "4970381804161") ]

/-- The dict of `_get_st_code_for_jan_code` (barcode → code). -/
def janStPairs : List (Str × Str) :=
  [ (str "4970381804220", str "ST-03CB")
  , (str "4970381804213", str "ST-04CB")
  , (str "4970381804206", str "ST-05CB")
  , (str "4970381804199", str "ST-06CB")
  , (str "4970381804182", str "ST-07CB")
  , (str "4970381804237", str "ST-08CB")
  , (str "4970381804234", str "ST-09CB")
  , (str "4970381804175", str "ST-10CB")
  , (str "4970381804168", str "ST-11CB")
  , (str "4970381804161", str "ST-12CB") ]

/-- The dict of `_get_character_for_st_code` (code → character name). -/
def stCharPairs : List (Str × Str) :=
  [ (str "ST-03CB", str "ピカチュウ")
  , (str "ST-04CB", str "イーブイ")
  , (str "ST-05CB", str "ハリマロン")
  , (str "ST-06CB", str "フォッコ")
  , (str "ST-07CB", str "ケロマツ")
  , (str "ST-08CB", str "バモ")
  , (str "ST-09CB", str "ハラバリー")
  , (str "ST-10CB", str "モクロー")
  , (str "ST-11CB", str "ニャビー")
  , (str "ST-12CB", str "アシマリ") ]

/-- The dict of `_get_character_for_jan_code` (barcode → character). -/
def janCharPairs : List (Str × Str) :=
  [ (str "4970381804220", str "ピカチュウ")
  , (str "4970381804213", str "イーブイ")
  , (str "4970381804206", str "ハリマロン")
  , (str "4970381804199", str "フォッコ")
  , (str "4970381804182", str "ケロマツ")
  , (str "4970381804237", str "バモ")
  , (str "4970381804234", str "ハラバリー")
  , (str "4970381804175", str "モクロー")
  , (str "4970381804168", str "ニャビー")
  , (str "4970381804161", str "アシマリ") ]

/-- `dict.get(k, '')`. -/
def dictGetD (pairs : List (Str × Str)) (k : Str) : Str :=
  ((pairs.find? (fun p => p.1 = k)).map (·.2)).getD []

/-- `_get_jan_code_for_st_code`. -/
def getJanCodeForStCode (st : Str) : Str := dictGetD stJanPairs st

/-- `_get_st_code_for_jan_code`. -/
def getStCodeForJanCode (jan : Str) : Str := dictGetD janStPairs jan

/-- `_get_character_for_st_code`. -/
def getCharacterForStCode (st : Str) : Str := dictGetD stCharPairs st

/-- `_get_character_for_jan_code`. -/
def getCharacterForJanCode (jan : Str) : Str := dictGetD janCharPairs jan

/-! ## Text normalizer (`_clean_repetitive_text`) -/

/-- The repetition-storm test of `_clean_repetitive_text`: on lines with
more than 10 words, a word longer than 2 characters accounting for more
than half of all words (`max_count > len(words) * 0.5`, i.e.
`2 * max_count > len(words)`). -/
def isRepetitionStorm (line : Str) : Bool :=
  let words := splitWs line
  if 10 < words.length then
    let longs := words.filter (fun w => 2 < w.length)
    longs.any (fun w => words.length < 2 * longs.count w)
  else false

/-- The loop of `_clean_repetitive_text`, with the `seen_lines` set
accumulated as a list.  Note that a line is added to the seen set before
the over-length and repetition-storm checks, exactly as in the source. -/
def cleanRepetitiveAux (seen : List Str) : List Str → List Str
  | [] => []
  | l :: rest =>
    let s := pyStrip l
    if s.isEmpty || s.length < 3 then cleanRepetitiveAux seen rest
    else if seen.contains s then cleanRepetitiveAux seen rest
    else if 200 < s.length then cleanRepetitiveAux (s :: seen) rest
    else if isRepetitionStorm s then cleanRepetitiveAux (s :: seen) rest
    else s :: cleanRepetitiveAux (s :: seen) rest

/-- `_clean_repetitive_text`. -/
def cleanRepetitiveText (text_lines : List Str) : List Str :=
  cleanRepetitiveAux [] text_lines

/-! ## Product data (`_parse_product_data_from_text`)

The structured dict is modelled as a record of the fields that the
segmentation and assembly code reads or writes (`none` = key absent),
plus a `rest` association list holding the entries of the remaining
optional extractors, supplied by the `restFn` parameter. -/

/-- The structured product dict. -/
structure ProductData where
  product_name : Option Str := none
  sku : Option Str := none
  jan_code : Option Str := none
  price : Option Str := none
  stock : Option Nat := none
  category : Option Str := none
  brand : Option Str := none
  release_date : Option Str := none
  manufacturer : Option Str := none
  description : Option Str := none
  dimensions : Option Str := none
  product_size : Option Str := none
  origin : Option Str := none
  target_age : Option Str := none
  product_index : Option Nat := none
  section_text : Option Str := none
  rest : List (Str × Str) := []
deriving Repr, DecidableEq

/-- Python truthiness of the dict (`if product_data:`): at least one key
present. -/
def ProductData.truthy (d : ProductData) : Bool :=
  d.product_name.isSome || d.sku.isSome || d.jan_code.isSome ||
  d.price.isSome || d.stock.isSome || d.category.isSome || d.brand.isSome ||
  d.release_date.isSome || d.manufacturer.isSome || d.description.isSome ||
  d.dimensions.isSome || d.product_size.isSome || d.origin.isSome ||
  d.target_age.isSome || d.product_index.isSome || d.section_text.isSome ||
  !d.rest.isEmpty

/-- The stripped non-empty lines used throughout the service
(`[line.strip() for line in raw_text.split('\n') if line.strip()]`). -/
def strippedLines (raw : Str) : List Str :=
  ((splitLines raw).map pyStrip).filter (fun l => !l.isEmpty)

/-- Value of a key in the `rest` entries. -/
def restLookup (rest : List (Str × Str)) (k : Str) : Option Str :=
  (rest.find? (fun p => p.1 = k)).map (·.2)

/-- `_parse_product_data_from_text`: each field is set only when its
extractor yields a truthy value (`if value:`); the price extractor can
raise, which propagates.  Fields 11–50 other than the ones named in the
record are abstracted by `restFn` (see the header comment); the
`dimensions`/`product_size`/`origin`/`target_age` keys, which later code
reads or overwrites, are taken from the `restFn` entries. -/
def parseProductData (restFn : Str → List (Str × Str)) (raw : Str) :
    Except Unit ProductData :=
  match extract_price raw with
  | .error e => .error e
  | .ok price =>
    let cleaned := cleanRepetitiveText (strippedLines raw)
    let brandRaw := extract_brand raw cleaned
    let rest := restFn raw
    .ok
      { product_name := pyTruthyStr (extract_product_name_swapped raw)
        sku := pyTruthyStr (extract_sku raw)
        jan_code := pyTruthyStr (extract_jan_code raw)
        price := pyTruthyStr price
        stock := match extract_stock raw with
          | some n => if n = 0 then none else some n
          | none => none
        category := pyTruthyStr (extract_category raw)
        brand := pyTruthyStr brandRaw
        release_date := pyTruthyStr (extract_release_date raw)
        manufacturer := pyTruthyStr (extract_manufacturer raw brandRaw)
        description :=
          if (extract_description raw).isEmpty then none
          else some (extract_description raw)
        dimensions := pyTruthyStr (restLookup rest (str "dimensions"))
        product_size := pyTruthyStr (restLookup rest (str "product_size"))
        origin := pyTruthyStr (restLookup rest (str "origin"))
        target_age := pyTruthyStr (restLookup rest (str "target_age"))
        rest := rest }

/-- `section[:300] + "..." if len(section) > 300 else section`. -/
def truncate300 (s : Str) : Str :=
  if 300 < s.length then s.take 300 ++ str "..." else s

/-! ## Section extraction -/

/-- The upward boundary search of `_extract_section_by_jan`. -/
def janSectionUp (text_lines : List Str) (jan : Str) (jli : Nat) :
    List Nat → Nat
  | [] => jli
  | i :: is =>
    let line := text_lines.getD i []
    if !(findallSTCode line).isEmpty || containsSub line (str "商品名") then i
    else if (searchJan13 line).isSome && !containsSub line jan then i + 1
    else janSectionUp text_lines jan jli is

/-- The downward boundary search of `_extract_section_by_jan`. -/
def janSectionDown (text_lines : List Str) (jli : Nat) : List Nat → Nat
  | [] => jli + 1
  | i :: is =>
    let line := text_lines.getD i []
    if !(findallSTCode line).isEmpty || (searchJan13 line).isSome then i
    else if containsSub line (str "商品サイズ") then i + 1
    else janSectionDown text_lines jli is

/-- `_extract_section_by_jan`: locate the line containing the JAN code
(plain, hyphen-stripped, or re-hyphenated form), then walk outward to
code boundaries within a bounded window. -/
def extractSectionByJan (raw jan : Str) : Str :=
  let text_lines := strippedLines raw
  let hyph := jan.take 7 ++ '-' :: jan.drop 7
  match text_lines.findIdx? (fun line =>
      containsSub line jan ||
      containsSub line (jan.filter (fun c => c ≠ '-')) ||
      containsSub line hyph) with
  | none => raw
  | some jli =>
    let upIdxs := (List.range (min jli 10)).map (fun k => jli - k)
    let start := janSectionUp text_lines jan jli upIdxs
    let downIdxs := (List.range (min text_lines.length (jli + 15) - (jli + 1))).map
      (fun k => jli + 1 + k)
    let stop := janSectionDown text_lines jli downIdxs
    joinNl ((text_lines.drop start).take (stop - start))

/-- The upward boundary search of `_extract_precise_section_by_st_code`. -/
def stSectionUp (text_lines : List Str) (others : List Str) (sli : Nat) :
    List Nat → Nat
  | [] => sli
  | i :: is =>
    let line := text_lines.getD i []
    if containsSub line (str "商品名") &&
        (containsSub line (str "ソフビ") || containsSub line (str "ポケモン")) then i
    else if others.any (containsSub line) then i + 1
    else stSectionUp text_lines others sli is

/-- The downward boundary search of `_extract_precise_section_by_st_code`. -/
def stSectionDown (text_lines : List Str) (others : List Str) (sli : Nat)
    (dflt : Nat) : List Nat → Nat
  | [] => dflt
  | i :: is =>
    let line := text_lines.getD i []
    if others.any (containsSub line) then i
    else if containsSub line (str "商品名") &&
        (containsSub line (str "ソフビ") || containsSub line (str "ポケモン")) &&
        sli + 3 < i then i
    else stSectionDown text_lines others sli dflt is

/-- `_extract_precise_section_by_st_code`. -/
def extractPreciseSectionBySt (raw st : Str) (allSts : List Str) : Str :=
  let text_lines := strippedLines raw
  match text_lines.findIdx? (fun l => containsSub l st) with
  | none => raw.take 500
  | some sli =>
    let others := allSts.filter (fun c => c ≠ st)
    let upIdxs := (List.range (min sli 15)).map (fun k => sli - k)
    let start := stSectionUp text_lines others sli upIdxs
    let downIdxs :=
      (List.range (min text_lines.length (sli + 20) - (sli + 1))).map
        (fun k => sli + 1 + k)
    let stop := stSectionDown text_lines others sli text_lines.length downIdxs
    let sect := joinNl ((text_lines.drop start).take (stop - start))
    let character := getCharacterForStCode st
    if character.isEmpty then sect else character ++ ' ' :: sect

/-! ## ST–JAN mapping (`_create_st_jan_mapping`)

Python dicts are modelled as association lists with insert-or-overwrite
update preserving insertion order. -/

/-- `mapping[k] = v` (overwrite the key's entry, else append; the dicts
built here always have pairwise-distinct keys). -/
def dinsert : List (Str × Str) → Str → Str → List (Str × Str)
  | [], k, v => [(k, v)]
  | p :: ps, k, v => if p.1 = k then (k, v) :: ps else p :: dinsert ps k v

/-- `mapping.values()`. -/
def dvalues (m : List (Str × Str)) : List Str := m.map (·.2)

/-- `k in mapping`. -/
def dhasKey (m : List (Str × Str)) (k : Str) : Bool :=
  m.any (fun p => p.1 = k)

/-- The downward scan of the proximity step (step 2): the first line of
the window whose first barcode is not yet used claims it. -/
def stJanProxLoop (text_lines : List Str) (st : Str)
    (m : List (Str × Str)) : List Nat → List (Str × Str)
  | [] => m
  | j :: js =>
    match searchJan13 (text_lines.getD j []) with
    | some jan =>
      if (dvalues m).contains jan then stJanProxLoop text_lines st m js
      else dinsert m st jan
    | none => stJanProxLoop text_lines st m js

/-- Steps 1 and 2 of `_create_st_jan_mapping` for one code: direct table
lookup (unconditional), else proximity within ten lines below the code's
first line. -/
def stJanStep12 (text_lines : List Str) (m : List (Str × Str)) (st : Str) :
    List (Str × Str) :=
  let direct := getJanCodeForStCode st
  if !direct.isEmpty then dinsert m st direct
  else
    match text_lines.findIdx? (fun l => containsSub l st) with
    | none => m
    | some i =>
      let idxs := (List.range (min text_lines.length (i + 10) - i)).map (i + ·)
      stJanProxLoop text_lines st m idxs

/-- The inner scan of the character step (step 3). -/
def stJanCharLoop (st character : Str) (m : List (Str × Str)) :
    List Str → List (Str × Str)
  | [] => m
  | cl :: cls =>
    if containsSub cl character || containsSub cl st then
      match searchJan13 cl with
      | some jan =>
        if (dvalues m).contains jan then stJanCharLoop st character m cls
        else dinsert m st jan
      | none => stJanCharLoop st character m cls
    else stJanCharLoop st character m cls

/-- Step 3 of `_create_st_jan_mapping`: character-mediated lookup for
codes still unmapped. -/
def stJanStep3 (text_lines : List Str) (m : List (Str × Str)) (st : Str) :
    List (Str × Str) :=
  if dhasKey m st then m
  else
    let character := getCharacterForStCode st
    if character.isEmpty then m
    else
      match text_lines.find? (fun l => containsSub l character) with
      | none => m
      | some _ => stJanCharLoop st character m text_lines

/-- The suffix normalization of step 4
(`jan_code if len(jan_code) == 13 else f"4970381{jan_code}"`). -/
def fullJan (v : Str) : Str :=
  if v.length = 13 then v else str "4970381" ++ v

/-- Step 4 of `_create_st_jan_mapping`: zip the unmapped codes with the
unused barcodes, normalizing six-digit suffixes. -/
def stJanStep4 (m : List (Str × Str)) (st_patterns jan_patterns : List Str) :
    List (Str × Str) :=
  let used := dvalues m
  let unused := jan_patterns.filter (fun j => !used.contains j)
  let unmapped := st_patterns.filter (fun st => !dhasKey m st)
  (unmapped.zip unused).foldl (fun m p => dinsert m p.1 (fullJan p.2)) m

/-- `_create_st_jan_mapping`. -/
def createStJanMapping (raw : Str) (st_patterns jan_patterns : List Str) :
    List (Str × Str) :=
  let text_lines := strippedLines raw
  let m1 := st_patterns.foldl (stJanStep12 text_lines) []
  let m2 := st_patterns.foldl (stJanStep3 text_lines) m1
  stJanStep4 m2 st_patterns jan_patterns

/-- `_create_clean_product_data_for_st_code`: a literal record derived
from the static tables, with price, release-date and stock inherited
from a guarded parse of the section (exceptions swallowed). -/
def createCleanProductData (restFn : Str → List (Str × Str))
    (st sectionText : Str) (idx : Nat) : ProductData :=
  let character := getCharacterForStCode st
  let directJan := getJanCodeForStCode st
  let base : ProductData :=
    { product_index := some idx
      sku := some st
      jan_code := some directJan
      product_name := some (if character.isEmpty then
          str "ポケモン コインバンク " ++ st
        else character ++ str " コインバンク " ++ st)
      category := some (str "アニメグッズ")
      brand := some (str "エンスカイ")
      manufacturer := some (str "株式会社エンスカイ")
      origin := some (str "日本")
      target_age := some (str "3歳以上")
      dimensions := some (str "約107×70×61mm")
      product_size := some (str "約107×70×61mm")
      description := some (if character.isEmpty then
          str "ポケモンの可愛い貯金箱です。インテリアとしても楽しめます。"
        else character ++ str "の可愛い貯金箱です。インテリアとしても楽しめます。")
      section_text := some (truncate300 sectionText) }
  match parseProductData restFn sectionText with
  | .error _ => base
  | .ok d =>
    if d.truthy then
      let b1 := match d.price with
        | some p => { base with price := some p }
        | none => base
      let b2 := match d.release_date with
        | some r => { b1 with release_date := some r }
        | none => b1
      match d.stock with
      | some n => { b2 with stock := some n }
      | none => b2
    else base

/-! ## Multi-product detectors (`_detect_multiple_products` cascade) -/

/-- `jan_patterns`: plain `\b(4\d{12})\b` matches plus the re-assembled
hyphenated `4970381-(\d{6})` matches. -/
def janPatternsOf (raw : Str) : List Str :=
  findallJan13 raw ++ (findallHyphenJan raw).map (fun c => str "4970381" ++ c)

/-- `st_patterns`: `ST-\d{2}[A-Z]{2}` occurrences. -/
def stPatternsOf (raw : Str) : List Str := findallSTCode raw

/-- `_has_multiple_st_codes`: more than one distinct `ST-\w+` token. -/
def hasMultipleStCodes (lines : List Str) : Bool :=
  1 < ((lines.flatMap findallSTWord).dedup).length

/-- `_has_multiple_en_codes`: more than one distinct `EN-\d+` token. -/
def hasMultipleEnCodes (lines : List Str) : Bool :=
  1 < ((lines.flatMap findallENNum).dedup).length

/-- The shared splitting loop of `_split_by_st_codes` /
`_split_by_en_codes`: a code-bearing line starts a new section. -/
def splitByCodesGo (isCode : Str → Bool) (current : List Str) :
    List Str → List Str
  | [] => if current.isEmpty then [] else [joinNl current]
  | l :: ls =>
    if isCode l && !current.isEmpty then
      joinNl current :: splitByCodesGo isCode [l] ls
    else splitByCodesGo isCode (current ++ [l]) ls

/-- `_split_by_st_codes`. -/
def splitByStCodes (lines : List Str) : List Str :=
  splitByCodesGo (fun l => !(findallSTWord l).isEmpty) [] lines

/-- `_split_by_en_codes`. -/
def splitByEnCodes (lines : List Str) : List Str :=
  splitByCodesGo (fun l => !(findallENNum l).isEmpty) [] lines

/-- The header keywords of `_detect_table_structure`. -/
def tableHeaderKeywords : List Str :=
  [ str "商品名", str "商品コード", str "JANコード", str "価格"
  , str "希望小売価格", str "発売予定日", str "入数", str "カートン"
  , str "パッケージ", str "サイズ", str "EN-", str "ST-"
  , str "Product", str "Code", str "Price" ]

/-- The loop of `_detect_table_structure`. -/
def detectTableGo (hf : Bool) (dr : Nat) : List Str → Bool
  | [] => hf && 2 ≤ dr
  | l :: ls =>
    if !hf && tableHeaderKeywords.any (containsSub l) then
      detectTableGo true dr ls
    else if hf && (!(findallENNum l).isEmpty || !(findallSTWord l).isEmpty ||
        (scanFirst match4d13 l).isSome ||
        containsSub l (str "¥") || containsSub l (str "円")) then
      detectTableGo hf (dr + 1) ls
    else detectTableGo hf dr ls

/-- `_detect_table_structure`: a header row followed by at least two
identifier-bearing data rows. -/
def detectTableStructure (lines : List Str) : Bool :=
  detectTableGo false 0 lines

/-- The (shorter) header keywords of `_split_table_rows`. -/
def tableSplitHeaderKeywords : List Str :=
  [ str "商品名", str "商品コード", str "JANコード", str "価格"
  , str "希望小売価格", str "発売予定日", str "入数", str "カートン"
  , str "パッケージ", str "サイズ" ]

/-- The loop of `_split_table_rows`: each not-yet-seen `EN-` data row is
paired with the saved header line. -/
def splitTableRowsGo (hf : Bool) (header : Str) (processed : List Str) :
    List Str → List Str
  | [] => []
  | l0 :: ls =>
    let l := pyStrip l0
    if l.isEmpty then splitTableRowsGo hf header processed ls
    else if !hf && tableSplitHeaderKeywords.any (containsSub l) then
      splitTableRowsGo true l processed ls
    else if hf then
      match scanFirst (fun s => (matchENNum s).map (·.1)) l with
      | some en =>
        if processed.contains en then splitTableRowsGo hf header processed ls
        else (header ++ '\n' :: l) :: splitTableRowsGo hf header (en :: processed) ls
      | none => splitTableRowsGo hf header processed ls
    else splitTableRowsGo hf header processed ls

/-- `_split_table_rows`. -/
def splitTableRows (lines : List Str) : List Str :=
  splitTableRowsGo false [] [] lines

/-- The fixed vocabulary of `_detect_multiple_pokemon_characters`. -/
def pokemonCharacterList : List Str :=
  [ str "ピカチュウ", str "イーブイ", str "ハリマロン", str "フォッコ"
  , str "ケロマツ", str "フシギダネ", str "ヒトカゲ", str "ゼニガメ"
  , str "チコリータ", str "ヒノアラシ", str "ワニノコ", str "キモリ"
  , str "アチャモ", str "ミズゴロウ", str "ナエトル", str "ヒコザル"
  , str "ポッチャマ", str "ツタージャ", str "ポカブ", str "ミジュマル" ]

/-- `_detect_multiple_pokemon_characters`. -/
def detectMultiplePokemon (raw : Str) : Bool :=
  1 < (pokemonCharacterList.filter (containsSub raw)).length

/-- `_split_by_pokemon_characters`: one window per present character,
around its first line. -/
def splitByPokemon (raw : Str) : List (Str × Str) :=
  let lines := splitLines raw
  pokemonCharacterList.foldl
    (fun acc character =>
      if containsSub raw character then
        match lines.findIdx? (fun l => containsSub l character) with
        | some i =>
          acc ++ [(character,
            joinNl ((lines.drop (i - 3)).take
              (min lines.length (i + 8) - (i - 3))))]
        | none => acc
      else acc)
    []

/-- The count-expression patterns of `_detect_multiple_by_count_expression`. -/
def countExprPatterns : List (Str × Str) :=
  [ (str "全", str "種類"), (str "全", str "種"), ([], str "種類")
  , ([], str "タイプ"), ([], str "バリエーション") ]

/-- `_detect_multiple_by_count_expression`: some pattern's first match
has a count above one. -/
def detectByCountExpr (raw : Str) : Bool :=
  countExprPatterns.any (fun pq =>
    match searchNumBetween pq.1 pq.2 raw with
    | some n => 1 < n
    | none => false)

/-! ## `_detect_multiple_products` -/

/-- The forced ST-code branch: one clean product per `ST-` occurrence
(the mapping is computed but, as in the source, feeds nothing). -/
def stBranch (restFn : Str → List (Str × Str)) (raw : Str)
    (st_patterns jan_patterns : List Str) : List ProductData :=
  let _mapping := createStJanMapping raw st_patterns jan_patterns
  st_patterns.enum.map (fun p =>
    createCleanProductData restFn p.2
      (extractPreciseSectionBySt raw p.2 st_patterns) (p.1 + 1))

/-- The per-product overrides of the JAN branch: the barcode, index,
section text, reverse-looked-up identity and the catalogue defaults are
written over the parsed data. -/
def janOverride (pd : ProductData) (jan sect : Str) (idx : Nat) :
    ProductData :=
  let character := getCharacterForJanCode jan
  let stc := getStCodeForJanCode jan
  let p1 := { pd with
    product_index := some idx
    section_text := some (truncate300 sect)
    jan_code := some jan }
  let p2 :=
    if !character.isEmpty then
      { p1 with
        product_name := some (character ++ str " コインバンク")
        description := some (character ++
          str "の可愛い貯金箱です。インテリアとしても楽しめます。") }
    else p1
  let p3 := if !stc.isEmpty then { p2 with sku := some stc } else p2
  let p4 :=
    if (p3.dimensions.getD []).isEmpty then
      { p3 with
        dimensions := some (str "約107×70×61mm")
        product_size := some (str "約107×70×61mm") }
    else p3
  { p4 with
    category := some (str "アニメグッズ")
    brand := some (str "エンスカイ")
    manufacturer := some (str "株式会社エンスカイ")
    origin := some (str "日本")
    target_age := some (str "3歳以上") }

/-- The forced JAN branch: one product per barcode occurrence, appended
when the parsed section dict is truthy. -/
def janBranchLoop (restFn : Str → List (Str × Str)) (raw : Str) :
    Nat → List Str → Except Unit (List ProductData)
  | _, [] => .ok []
  | i, jan :: rest =>
    match parseProductData restFn (extractSectionByJan raw jan) with
    | .error e => .error e
    | .ok pd =>
      match janBranchLoop restFn raw (i + 1) rest with
      | .error e => .error e
      | .ok tail =>
        .ok (if pd.truthy then
          janOverride pd jan (extractSectionByJan raw jan) (i + 1) :: tail
        else tail)

/-- The shared loop of the EN/ST-split and table branches: a numbered
section is kept when it strips non-empty, parses truthy and has a
product name. -/
def namedSectionLoop (restFn : Str → List (Str × Str)) :
    Nat → List Str → Except Unit (List ProductData)
  | _, [] => .ok []
  | i, sect :: rest => do
    let tailGo (keep : Option ProductData) := do
      let tail ← namedSectionLoop restFn (i + 1) rest
      pure (match keep with | some p => p :: tail | none => tail)
    if (pyStrip sect).isEmpty then tailGo none
    else do
      let pd ← parseProductData restFn sect
      if pd.truthy && (pyTruthyStr pd.product_name).isSome then
        tailGo (some { pd with
          product_index := some (i + 1)
          section_text := some (truncate300 sect) })
      else tailGo none

/-- The Pokémon-character branch loop. -/
def pokemonLoop (restFn : Str → List (Str × Str)) :
    Nat → List (Str × Str) → Except Unit (List ProductData)
  | _, [] => .ok []
  | i, (character, sect) :: rest => do
    if (pyStrip sect).isEmpty then pokemonLoop restFn (i + 1) rest
    else do
      let pd ← parseProductData restFn sect
      let tail ← pokemonLoop restFn (i + 1) rest
      if pd.truthy then
        let p1 := { pd with
          product_index := some (i + 1)
          section_text := some (truncate300 sect) }
        let p2 :=
          if (pyTruthyStr p1.product_name).isNone ||
              !containsSub (p1.product_name.getD []) character then
            { p1 with
              product_name := some (str "ポケモンコインバンク " ++ character) }
          else p1
        pure ({ p2 with
          category := some (str "アニメグッズ")
          brand := some (str "エンスカイ")
          manufacturer := some (str "株式会社エンスカイ") } :: tail)
      else pure tail

/-- The variant records synthesized by the count-expression branch. -/
def countVariants (base : ProductData) (n : Nat) : List ProductData :=
  (List.range (min n 10)).map (fun i =>
    { base with
      product_name := some ((base.product_name.getD (str "Unknown")) ++
        str " - タイプ" ++ natToStr (i + 1))
      product_index := some (i + 1)
      section_text := some (str "Product " ++ natToStr (i + 1) ++
        str " from " ++ natToStr n ++ str " total variants") })

/-- The count-expression branch (`全N種類`): up to ten near-identical
copies of the base record, labelled by variant index. -/
def countBranch (restFn : Str → List (Str × Str)) (raw : Str) :
    Except Unit (List ProductData) :=
  match searchNumBetween (str "全") (str "種類") raw with
  | some n =>
    match parseProductData restFn raw with
    | .error e => .error e
    | .ok base => .ok (countVariants base n)
  | none => .ok []

/-- Branches 2–5 of the cascade (EN/ST split, table, Pokémon entities,
count phrase), whose accumulated products go through the final
`len(products) > 1` filter. -/
def fallbackBranches (restFn : Str → List (Str × Str)) (raw : Str)
    (text_lines : List Str) : Except Unit (List ProductData) :=
  if hasMultipleStCodes text_lines || hasMultipleEnCodes text_lines then
    namedSectionLoop restFn 0
      (if hasMultipleEnCodes text_lines then splitByEnCodes text_lines
       else splitByStCodes text_lines)
  else if detectTableStructure text_lines then
    namedSectionLoop restFn 0 (splitTableRows text_lines)
  else if detectMultiplePokemon raw then
    pokemonLoop restFn 0 (splitByPokemon raw)
  else if detectByCountExpr raw then
    countBranch restFn raw
  else .ok []

/-- `_detect_multiple_products`: the ordered detector cascade.  The ST
and JAN branches return their products directly; the remaining branches
go through the final `len(products) > 1` filter. -/
def detectMultipleProducts (restFn : Str → List (Str × Str)) (raw : Str) :
    Except Unit (List ProductData) :=
  if raw.isEmpty then .ok []
  else
    if 1 < (stPatternsOf raw).length then
      .ok (stBranch restFn raw (stPatternsOf raw) (janPatternsOf raw))
    else if 1 < (janPatternsOf raw).length then
      janBranchLoop restFn raw 0 (janPatternsOf raw)
    else
      match fallbackBranches restFn raw (strippedLines raw) with
      | .error e => .error e
      | .ok products => .ok (if 1 < products.length then products else [])

/-- The `restFn` instantiation used for concrete evaluations: no
remaining extractor fires (checked against the source extractors for
every concrete input used below). -/
def emptyRest : Str → List (Str × Str) := fun _ => []

/-! ## OCR processor (`ocr_processor.py`)

The job pipeline `process_conversion_job` / `_process_single_file` of
`OCRProcessor`.  Confidence scores are modelled as rationals (Python
float comparisons against 70 are exact here).  The persistence layer is
modelled by collecting the saved `ExtractedData` rows; job-store
progress updates are modelled as non-failing. -/

/-- The result of `extract_text_from_file` for one file: the call either
raises (`.error` with the exception message, e.g. a rate-limit/quota
`ValueError`) or returns text, a confidence score and structured data. -/
structure OcrResult where
  raw_text : Str
  confidence_score : Rat
  structured : List (Str × Str)
deriving Repr, DecidableEq

/-- One file of a conversion job, with the behaviour of the external
calls made for it. -/
structure FileSpec where
  original_name : Str
  mime_type : Str
  transcription : Except Str OcrResult
deriving Repr

/-- The supported MIME types of `_is_supported_file`. -/
def supportedMimes : List Str :=
  [ str "image/jpeg", str "image/jpg", str "image/png", str "image/tiff"
  , str "image/bmp", str "image/gif", str "image/webp", str "application/pdf"
  , str "application/vnd.ms-excel"
  , str "application/vnd.openxmlformats-officedocument.spreadsheetml.sheet" ]

/-- The supported file extensions of `_is_supported_file`. -/
def supportedExtensions : List Str :=
  [ str ".jpg", str ".jpeg", str ".png", str ".tiff", str ".bmp"
  , str ".gif", str ".webp", str ".pdf", str ".xls", str ".xlsx" ]

/-- `Path(filename).suffix.lower()`: the last dot-suffix of the final
path segment (empty for dot-less or leading-dot names). -/
def pathSuffix (filename : Str) : Str :=
  let base := (splitOnChar '/' filename).getLastD []
  let parts := splitOnChar '.' base
  if parts.length ≤ 1 then []
  else if (parts.headD []).isEmpty && parts.length = 2 then []
  else '.' :: (parts.getLastD []).map Char.toLower

/-- `_is_supported_file`. -/
def isSupportedFile (mime filename : Str) : Bool :=
  supportedMimes.contains (mime.map Char.toLower) ||
  supportedExtensions.contains (pathSuffix filename)

/-- The persisted `ExtractedData` row (the fields the claims are about). -/
structure ExtractedRecord where
  product_name : Option Str
  raw_text : Str
  confidence_score : Rat
  status : Str
  needs_review : Bool
deriving Repr, DecidableEq

/-- The record built by `_process_single_file` from a successful OCR
result (`ocr_processor.py`, lines 225–265): status is `"completed"`
when the confidence score is at least 70 and `"needs_review"` otherwise,
and `needs_review` is set exactly when the score is below 70. -/
def mkExtractedRecord (r : OcrResult) : ExtractedRecord :=
  { product_name := restLookup r.structured (str "product_name")
    raw_text := r.raw_text
    confidence_score := r.confidence_score
    status := if 70 ≤ r.confidence_score then str "completed"
      else str "needs_review"
    needs_review := r.confidence_score < 70 }

/-- The pending-retry placeholder that the quota/rate-limit arm of
`process_conversion_job` (lines 129–141) would persist. -/
def mkQuotaRetryRecord (originalName errMsg : Str) : ExtractedRecord :=
  { product_name := some (str "再試行待ち: " ++ originalName)
    raw_text := str "API制限により処理待ち: " ++ errMsg
    confidence_score := 0
    status := str "pending_retry"
    needs_review := true }

/-- The failed placeholder of the other-error arm (lines 148–160). -/
def mkFailedRecord (originalName errMsg : Str) : ExtractedRecord :=
  { product_name := some (str "処理失敗: " ++ originalName)
    raw_text := str "処理エラー: " ++ errMsg
    confidence_score := 0
    status := str "failed"
    needs_review := true }

/-- The quota test of the handler (`"quota" in msg.lower() or "429" in msg`). -/
def isQuotaError (msg : Str) : Bool :=
  containsSub (msg.map Char.toLower) (str "quota") || containsSub msg (str "429")

/-- The rate-limit test of the handler. -/
def isRateLimitError (msg : Str) : Bool :=
  containsSub (msg.map Char.toLower) (str "rate") &&
    containsSub (msg.map Char.toLower) (str "limit")

/-- `_process_single_file`: unsupported files are skipped, and the
blanket `except Exception` at the function's end turns any exception of
the body — including a rate-limit or quota error raised by the
transcription call — into `None`, so no record is persisted for such a
file. -/
def processSingleFile (f : FileSpec) : Option ExtractedRecord :=
  if !isSupportedFile f.mime_type f.original_name then none
  else
    match f.transcription with
    | .error _ => none
    | .ok r => some (mkExtractedRecord r)

/-- Outcome of a conversion job: the persisted records, the processed
count and the final job status. -/
structure JobOutcome where
  records : List ExtractedRecord
  processed : Nat
  job_status : Str
deriving Repr, DecidableEq

/-- The per-file loop of `process_conversion_job`.  The `except` arm of
the loop (which would build `mkQuotaRetryRecord` / `mkFailedRecord`) can
only run when the loop body raises; `_process_single_file` catches its
own exceptions and the modelled progress update does not fail, so the
fold below is total and the handler never contributes a record. -/
def processJobLoop (acc : List ExtractedRecord × Nat) :
    List FileSpec → List ExtractedRecord × Nat
  | [] => acc
  | f :: fs =>
    match processSingleFile f with
    | some r => processJobLoop (acc.1 ++ [r], acc.2 + 1) fs
    | none => processJobLoop acc fs

/-- `process_conversion_job` over the files of a job: sequential
processing, then `completed` when at least one file was processed and
`failed` otherwise. -/
def processConversionJob (files : List FileSpec) : JobOutcome :=
  let (records, processed) := processJobLoop ([], 0) files
  { records := records
    processed := processed
    job_status := if 0 < processed then str "completed" else str "failed" }

/-- A file whose transcription call raises a rate-limit/quota error, as
the external service does on HTTP 429 (`openai_ocr_service.py` raises
`ValueError` with such a message). -/
def rateLimitFile : FileSpec :=
  { original_name := str "catalog.png"
    mime_type := str "image/png"
    transcription := .error
      (str "OpenAI API quota exceeded. Error: 429 rate limit") }

/-- A file whose transcription succeeds with confidence 80. -/
def okFile : FileSpec :=
  { original_name := str "page.png"
    mime_type := str "image/png"
    transcription := .ok
      { raw_text := str "全1種"
        confidence_score := 80
        structured := [] } }

/-! ## Theorems -/

/-- `C6`: the price extractor is not total: on the input `"¥,"` the
source computes `int(','.replace(',', ''))` = `int('')`, which raises
`ValueError`; the claim that `_extract_price` never raises fails on this
input. -/
theorem extract_price_raises_on_comma :
    extract_price (str "¥,") = .error () := by
  rfl

/-- `C8`: code resolution round-trips through the static tables: for
every code in the `_get_jan_code_for_st_code` table, looking up its
barcode and reverse-looking that barcode up in the
`_get_st_code_for_jan_code` table returns the original code. -/
theorem st_jan_roundtrip :
    stJanPairs.all
      (fun p => getStCodeForJanCode (getJanCodeForStCode p.1) = p.1) = true := by
  decide

/-- `C3` counterexample: a record assembled from a transcription with
confidence 80 has status `"completed"`, not `"extracted"` as the claim
states. -/
theorem status_eighty_not_extracted :
    (mkExtractedRecord
        { raw_text := [], confidence_score := 80, structured := [] }).status =
      str "completed" ∧
    (mkExtractedRecord
        { raw_text := [], confidence_score := 80, structured := [] }).status ≠
      str "extracted" := by
  constructor
  · rfl
  · decide

/-- `C3` (amended): for every successfully transcribed file, the
assembled record has status `"needs_review"` and `needs_review = true`
exactly when the confidence score is below 70, and status `"completed"`
(not `"extracted"`) exactly when the score is at least 70. -/
theorem status_threshold_spec (r : OcrResult) :
    ((mkExtractedRecord r).status = str "needs_review" ↔
      r.confidence_score < 70) ∧
    ((mkExtractedRecord r).needs_review = true ↔ r.confidence_score < 70) ∧
    ((mkExtractedRecord r).status = str "completed" ↔
      70 ≤ r.confidence_score) := by
  have hd : (mkExtractedRecord r).status =
      (if 70 ≤ r.confidence_score then str "completed"
       else str "needs_review") := rfl
  have hn : (mkExtractedRecord r).needs_review =
      decide (r.confidence_score < 70) := rfl
  by_cases h : (70 : Rat) ≤ r.confidence_score
  · rw [hd, hn, if_pos h]
    exact ⟨iff_of_false (by decide) (not_lt.mpr h),
      by simp [not_lt.mpr h], iff_of_true rfl h⟩
  · rw [hd, hn, if_neg h]
    exact ⟨iff_of_true rfl (not_le.mp h),
      by simp [not_le.mp h], iff_of_false (by decide) h⟩

/-- `C4` counterexample: a transcription with three `ST-` code
occurrences and two distinct plausible barcodes is segmented by the
ST-code detector into three records (whose `jan_code` fields are the
empty string), not into one section per barcode — the barcode-count
detector does not have the highest priority. -/
theorem st_codes_preempt_barcodes :
    (detectMultipleProducts emptyRest
        (str "ST-97ZX\nST-98ZY\nST-99ZZ\n4111111111111\n4222222222222")).toOption.map
        (fun l => l.map (·.jan_code)) =
      some [some [], some [], some []] ∧
    (janPatternsOf
        (str "ST-97ZX\nST-98ZY\nST-99ZZ\n4111111111111\n4222222222222")).dedup.length = 2 := by
  constructor
  · rfl
  · rfl

/-- `C5` counterexample: in `_create_st_jan_mapping`, the direct
table-lookup step does not honour first-come-first-served ownership: in
a document where the unknown code `ST-99ZX` first claims the barcode
`4970381804220` by positional proximity, the later code `ST-03CB` is
still assigned that same barcode by direct lookup, so the mapping is not
injective. -/
theorem st_jan_mapping_not_injective :
    createStJanMapping (str "ST-99ZX\n4970381804220\nST-03CB")
        (stPatternsOf (str "ST-99ZX\n4970381804220\nST-03CB"))
        (janPatternsOf (str "ST-99ZX\n4970381804220\nST-03CB")) =
      [ (str "ST-99ZX", str "4970381804220")
      , (str "ST-03CB", str "4970381804220") ] := by
  rfl

/-! ### Idempotence of the normalizer (claim C7) -/

theorem dropWhile_dropWhile (p : Char → Bool) (l : Str) :
    (l.dropWhile p).dropWhile p = l.dropWhile p := by
  induction l with
  | nil => rfl
  | cons c t ih =>
    by_cases h : p c = true
    · simpa [List.dropWhile_cons, h] using ih
    · simp [List.dropWhile_cons, h]

theorem dropWhile_eq_self_of_prefix {p : Char → Bool} {l l' : Str}
    (hpre : l' <+: l) (hl : l.dropWhile p = l) : l'.dropWhile p = l' := by
  cases l' with
  | nil => rfl
  | cons c t =>
    obtain ⟨r, hr⟩ := hpre
    have hc : ¬p c = true := by
      intro hp
      subst hr
      rw [List.cons_append, List.dropWhile_cons, if_pos hp] at hl
      have := congrArg List.length hl
      have hle : (List.dropWhile p (t ++ r)).length ≤ (t ++ r).length :=
        (List.dropWhile_suffix p).sublist.length_le
      simp only [List.length_append, List.length_cons] at this hle
      omega
    simp [List.dropWhile_cons, hc]

/-- The right-strip part of `pyStrip`. -/
theorem rstrip_prefix (p : Char → Bool) (l : Str) :
    (l.reverse.dropWhile p).reverse <+: l := by
  simpa [List.rdropWhile] using List.rdropWhile_prefix p l

theorem pyStrip_idem (s : Str) : pyStrip (pyStrip s) = pyStrip s := by
  unfold pyStrip
  set t := s.dropWhile pyIsSpace with ht
  have h1 : t.dropWhile pyIsSpace = t := dropWhile_dropWhile pyIsSpace s
  set u := (t.reverse.dropWhile pyIsSpace).reverse with hu
  have hpre : u <+: t := rstrip_prefix pyIsSpace t
  have h2 : u.dropWhile pyIsSpace = u := dropWhile_eq_self_of_prefix hpre h1
  rw [h2]
  rw [hu]
  rw [List.reverse_reverse, dropWhile_dropWhile]

/-- The membership invariant of the cleaning loop: every emitted line is
outside the seen set, is its own strip, and passes the three gates. -/
theorem mem_cleanRepetitiveAux {seen ls : List Str} {x : Str}
    (hx : x ∈ cleanRepetitiveAux seen ls) :
    x ∉ seen ∧ pyStrip x = x ∧
      (x.isEmpty || decide (x.length < 3)) = false ∧
      decide (200 < x.length) = false ∧ isRepetitionStorm x = false := by
  induction ls generalizing seen with
  | nil => simp [cleanRepetitiveAux] at hx
  | cons l rest ih =>
    rw [cleanRepetitiveAux] at hx
    by_cases h1 : (pyStrip l).isEmpty = true ∨ (pyStrip l).length < 3
    · rw [if_pos (by simpa using h1)] at hx
      exact ih hx
    · rw [if_neg (by simpa using h1)] at hx
      by_cases h2 : seen.contains (pyStrip l) = true
      · rw [if_pos h2] at hx
        exact ih hx
      · rw [if_neg h2] at hx
        by_cases h3 : 200 < (pyStrip l).length
        · rw [if_pos (by simpa using h3)] at hx
          have := ih hx
          exact ⟨fun hs => this.1 (List.mem_cons_of_mem _ hs), this.2⟩
        · rw [if_neg (by simpa using h3)] at hx
          by_cases h4 : isRepetitionStorm (pyStrip l) = true
          · rw [if_pos h4] at hx
            have := ih hx
            exact ⟨fun hs => this.1 (List.mem_cons_of_mem _ hs), this.2⟩
          · rw [if_neg h4] at hx
            rcases List.mem_cons.mp hx with hx | hx
            · subst hx
              refine ⟨?_, pyStrip_idem l, ?_, ?_, ?_⟩
              · intro hmem
                exact h2 (List.elem_eq_true_of_mem hmem)
              · simpa using h1
              · simpa using h3
              · simpa using h4
            · have := ih hx
              exact ⟨fun hs => this.1 (List.mem_cons_of_mem _ hs), this.2⟩

/-- The cleaning loop never emits a line twice. -/
theorem cleanRepetitiveAux_nodup (seen ls : List Str) :
    (cleanRepetitiveAux seen ls).Nodup := by
  induction ls generalizing seen with
  | nil => simp [cleanRepetitiveAux]
  | cons l rest ih =>
    rw [cleanRepetitiveAux]
    split
    · exact ih seen
    · split
      · exact ih seen
      · split
        · exact ih _
        · split
          · exact ih _
          · refine List.nodup_cons.mpr ⟨fun hmem => ?_, ih _⟩
            exact (mem_cleanRepetitiveAux hmem).1 (List.mem_cons_self _ _)

/-- Lines that are already clean pass through the loop unchanged. -/
theorem cleanRepetitiveAux_fixed : ∀ (ls seen : List Str),
    (∀ x ∈ ls, pyStrip x = x ∧
      (x.isEmpty || decide (x.length < 3)) = false ∧
      decide (200 < x.length) = false ∧ isRepetitionStorm x = false) →
    ls.Nodup → (∀ x ∈ ls, x ∉ seen) →
    cleanRepetitiveAux seen ls = ls
  | [], _, _, _, _ => rfl
  | l :: rest, seen, h1, h2, h3 => by
    obtain ⟨hstrip, hg1, hg3, hg4⟩ := h1 l (List.mem_cons_self _ _)
    rw [cleanRepetitiveAux, hstrip]
    rw [if_neg (by simp_all), if_neg ?hseen, if_neg (by simp_all),
      if_neg (by simp_all)]
    case hseen =>
      intro hc
      exact h3 l (List.mem_cons_self _ _) (List.mem_of_elem_eq_true hc)
    congr 1
    refine cleanRepetitiveAux_fixed rest (l :: seen) ?_
      (List.nodup_cons.mp h2).2 ?_
    · exact fun x hx => h1 x (List.mem_cons_of_mem _ hx)
    · intro x hx hmem
      rcases List.mem_cons.mp hmem with hxl | hxs
      · exact (List.nodup_cons.mp h2).1 (hxl ▸ hx)
      · exact h3 x (List.mem_cons_of_mem _ hx) hxs

/-- `C7`: text normalization is idempotent:
`_clean_repetitive_text(_clean_repetitive_text(lines)) =
_clean_repetitive_text(lines)` for every input. -/
theorem cleanRepetitiveText_idempotent (ls : List Str) :
    cleanRepetitiveText (cleanRepetitiveText ls) = cleanRepetitiveText ls := by
  unfold cleanRepetitiveText
  refine cleanRepetitiveAux_fixed _ [] ?_ (cleanRepetitiveAux_nodup [] ls) ?_
  · exact fun x hx => (mem_cleanRepetitiveAux hx).2
  · exact fun x _ => List.not_mem_nil x

/-! ### Totality of the description generator and truthiness of the
parsed dict (used by claims C1, C4, C9, C10) -/

theorem append_left_ne_nil {a b : Str} (ha : a ≠ []) : a ++ b ≠ [] := by
  intro h
  exact ha (List.append_eq_nil.mp h).1

theorem append_right_ne_nil {a b : Str} (hb : b ≠ []) : a ++ b ≠ [] := by
  intro h
  exact hb (List.append_eq_nil.mp h).2

/-- A capture returned by the direct-pattern loop of
`_extract_description` is longer than ten characters. -/
theorem descDirectLoop_big (raw : Str) :
    ∀ (ms : List (Str → Option (Str × Str))) (d : Str),
      descDirectLoop raw ms = some d → 10 < d.length
  | [], d, h => by simp [descDirectLoop] at h
  | m :: rest, d, h => by
    rw [descDirectLoop] at h
    split at h
    · dsimp only at h
      split at h
      · cases h
        next hlen =>
          simpa using ((Bool.and_eq_true _ _).mp hlen).1
      · exact descDirectLoop_big raw rest d h
    · exact descDirectLoop_big raw rest d h

theorem ite_ne_nil {c : Prop} [Decidable c] {a b : Str} (ha : a ≠ [])
    (hb : b ≠ []) : (if c then a else b) ≠ [] := by
  split <;> assumption

theorem descFeatures_ne_nil (raw : Str) : descFeatures raw ≠ [] := by
  show (if _ then _ else _) ≠ []
  exact ite_ne_nil (append_left_ne_nil (by decide))
    (ite_ne_nil
      (ite_ne_nil (by decide) (ite_ne_nil (by decide) (by decide)))
      (ite_ne_nil (by decide) (by decide)))

theorem descFromName_ne_nil (raw : Str) :
    extract_description.descFromName raw ≠ [] := by
  unfold extract_description.descFromName
  split
  · exact ite_ne_nil
      (ite_ne_nil (append_right_ne_nil (by decide))
        (ite_ne_nil (append_right_ne_nil (by decide))
          (ite_ne_nil (append_right_ne_nil (by decide))
            (append_right_ne_nil (by decide)))))
      (ite_ne_nil (append_right_ne_nil (by decide))
        (ite_ne_nil (append_right_ne_nil (by decide))
          (descFeatures_ne_nil raw)))
  · exact descFeatures_ne_nil raw

/-- `_extract_description` always returns a non-empty string: every
return path ends in a non-empty literal or a checked capture. -/
theorem extract_description_ne_nil (raw : Str) :
    extract_description raw ≠ [] := by
  unfold extract_description
  cases hd : descDirectLoop raw
      [ matchKwLine (str "商品説明"), matchKwLine (str "詳細")
      , matchKwLine (str "Description") ] with
  | none => exact descFromName_ne_nil raw
  | some d =>
    have h10 := descDirectLoop_big raw _ d hd
    show d ≠ []
    intro hnil
    rw [hnil] at h10
    simp at h10

/-- Every successfully parsed product dict is truthy: the description
key is always set. -/
theorem parseProductData_truthy {restFn : Str → List (Str × Str)}
    {raw : Str} {d : ProductData}
    (h : parseProductData restFn raw = .ok d) : d.truthy = true := by
  unfold parseProductData at h
  cases hp : extract_price raw with
  | error e => rw [hp] at h; cases h
  | ok price =>
    rw [hp] at h
    cases h
    have hne := extract_description_ne_nil raw
    have hie : (extract_description raw).isEmpty = false := by
      cases hh : extract_description raw with
      | nil => exact absurd hh hne
      | cons c t => rfl
    simp [ProductData.truthy, hie]

/-- The JAN-branch overrides pin the barcode field. -/
theorem janOverride_jan_code (pd : ProductData) (jan sect : Str) (idx : Nat) :
    (janOverride pd jan sect idx).jan_code = some jan := by
  unfold janOverride
  dsimp only
  repeat' split
  all_goals rfl

/-- The JAN-branch overrides pin the product index. -/
theorem janOverride_product_index (pd : ProductData) (jan sect : Str)
    (idx : Nat) : (janOverride pd jan sect idx).product_index = some idx := by
  unfold janOverride
  dsimp only
  repeat' split
  all_goals rfl

/-- Specification of the JAN branch: when it completes normally it emits
exactly one record per barcode occurrence, in order, with the barcode
written into `jan_code` and consecutive 1-based indices. -/
theorem janBranchLoop_spec (restFn : Str → List (Str × Str)) (raw : Str) :
    ∀ (jans : List Str) (i : Nat) (l : List ProductData),
      janBranchLoop restFn raw i jans = .ok l →
      l.map (·.jan_code) = jans.map some ∧
      l.map (·.product_index) =
        (List.range jans.length).map (fun k => some (i + k + 1))
  | [], i, l, h => by
    rw [janBranchLoop] at h
    cases h
    simp
  | jan :: rest, i, l, h => by
    rw [janBranchLoop] at h
    cases hp : parseProductData restFn (extractSectionByJan raw jan) with
    | error e => rw [hp] at h; dsimp only at h; cases h
    | ok pd =>
      rw [hp] at h
      cases ht : janBranchLoop restFn raw (i + 1) rest with
      | error e => rw [ht] at h; dsimp only at h; cases h
      | ok tail =>
        rw [ht] at h
        dsimp only at h
        rw [if_pos (parseProductData_truthy hp)] at h
        cases h
        obtain ⟨ih1, ih2⟩ := janBranchLoop_spec restFn raw rest (i + 1) tail ht
        constructor
        · simp only [List.map_cons, janOverride_jan_code, ih1]
        · simp only [List.map_cons, janOverride_product_index, ih2,
            List.length_cons, List.range_succ_eq_map, List.map_map]
          refine congrArg₂ List.cons (by simp) ?_
          apply List.map_congr_left
          intro k _
          simp only [Function.comp_apply]
          congr 1
          omega

/-- With at most one `ST-` occurrence and at least two barcode
occurrences, the cascade takes the JAN branch. -/
theorem detect_takes_jan_branch (restFn : Str → List (Str × Str)) (raw : Str)
    (hst : (stPatternsOf raw).length ≤ 1)
    (hj : 2 ≤ (janPatternsOf raw).length) :
    detectMultipleProducts restFn raw =
      janBranchLoop restFn raw 0 (janPatternsOf raw) := by
  have hraw : ¬raw.isEmpty = true := by
    cases raw with
    | nil =>
      have : janPatternsOf ([] : Str) = [] := rfl
      rw [this] at hj
      simp at hj
    | cons c t => simp
  unfold detectMultipleProducts
  rw [if_neg hraw, if_neg (by omega), if_pos (by omega)]

/-- `C1` (amended): when the barcode-count detector fires with `N ≥ 2`
barcode occurrences that are pairwise distinct, no multiple `ST-` codes
are present, and detection completes normally, the segmenter-assembler
produces exactly `N` records whose `jan_code` fields are the detected
barcodes (hence distinct and non-null) and whose `product_index` fields
are `1..N` in order. -/
theorem barcode_count_consistency (restFn : Str → List (Str × Str))
    (raw : Str) (N : Nat) (l : List ProductData)
    (hN : (janPatternsOf raw).length = N) (h2 : 2 ≤ N)
    (hnd : (janPatternsOf raw).Nodup)
    (hst : (stPatternsOf raw).length ≤ 1)
    (hok : detectMultipleProducts restFn raw = .ok l) :
    l.length = N ∧
    l.map (·.jan_code) = (janPatternsOf raw).map some ∧
    l.map (·.product_index) = (List.range N).map (fun k => some (k + 1)) ∧
    (l.map (·.jan_code)).Nodup := by
  rw [detect_takes_jan_branch restFn raw hst (by omega)] at hok
  obtain ⟨h1, h2'⟩ := janBranchLoop_spec restFn raw _ 0 l hok
  refine ⟨?_, h1, ?_, ?_⟩
  · have := congrArg List.length h1
    simpa [hN] using this
  · rw [h2', hN]
    apply List.map_congr_left
    intro k _
    simp
  · rw [h1]
    exact hnd.map (Option.some_injective _)

/-- `C1` counterexample: on a transcription where a barcode occurs
twice (`4111111111111` twice and `4222222222222` once — two distinct
barcodes, so the detector fires with `N = 2`), the pipeline produces
three records with a duplicated `jan_code`, not two records with
distinct barcodes as the claim states. -/
theorem barcode_duplicate_breaks_count :
    (janPatternsOf
        (str "4111111111111\n4111111111111\n4222222222222")).dedup.length = 2 ∧
    (detectMultipleProducts emptyRest
        (str "4111111111111\n4111111111111\n4222222222222")).toOption.map
        (fun l => l.map (·.jan_code)) =
      some [some (str "4111111111111"), some (str "4111111111111"),
        some (str "4222222222222")] := by
  exact ⟨by rfl, by rfl⟩

/-- Witness for `C1` (amended) at a two-barcode transcription. -/
theorem barcode_count_consistency_witness :
    ((detectMultipleProducts emptyRest
        (str "4111111111111\n4222222222222")).toOption.getD []).length = 2 ∧
    ((detectMultipleProducts emptyRest
        (str "4111111111111\n4222222222222")).toOption.getD []).map
        (·.jan_code) =
      (janPatternsOf (str "4111111111111\n4222222222222")).map some ∧
    ((detectMultipleProducts emptyRest
        (str "4111111111111\n4222222222222")).toOption.getD []).map
        (·.product_index) =
      (List.range 2).map (fun k => some (k + 1)) ∧
    (((detectMultipleProducts emptyRest
        (str "4111111111111\n4222222222222")).toOption.getD []).map
        (·.jan_code)).Nodup :=
  barcode_count_consistency emptyRest
    (str "4111111111111\n4222222222222") 2 _ (by rfl) (by omega) (by decide)
    (by decide) (by rfl)

/-- `C4` (amended): the `ST-`code-count detector is evaluated first;
when at most one `ST-` code occurrence is present, two or more barcode
occurrences force one record per barcode occurrence regardless of the
remaining detectors (product-code split, table layout, entity list,
count phrase), whose branches are not consulted. -/
theorem jan_branch_priority (restFn : Str → List (Str × Str)) (raw : Str)
    (l : List ProductData)
    (hst : (stPatternsOf raw).length ≤ 1)
    (hj : 2 ≤ (janPatternsOf raw).length)
    (hok : detectMultipleProducts restFn raw = .ok l) :
    l.length = (janPatternsOf raw).length ∧
    l.map (·.jan_code) = (janPatternsOf raw).map some := by
  rw [detect_takes_jan_branch restFn raw hst hj] at hok
  obtain ⟨h1, _⟩ := janBranchLoop_spec restFn raw _ 0 l hok
  refine ⟨?_, h1⟩
  have := congrArg List.length h1
  simpa using this

/-- Witness for `C4` (amended). -/
theorem jan_branch_priority_witness :
    ((detectMultipleProducts emptyRest
        (str "4111111111111\n全3種類\n4222222222222")).toOption.getD []).length =
      (janPatternsOf (str "4111111111111\n全3種類\n4222222222222")).length ∧
    ((detectMultipleProducts emptyRest
        (str "4111111111111\n全3種類\n4222222222222")).toOption.getD []).map
        (·.jan_code) =
      (janPatternsOf (str "4111111111111\n全3種類\n4222222222222")).map some :=
  jan_branch_priority emptyRest (str "4111111111111\n全3種類\n4222222222222")
    _ (by decide) (by decide) (by rfl)

/-- `C10`: the multi-product detection entry point never returns a list
of exactly one record: every normally-completed run yields either an
empty list (single product) or at least two records. -/
theorem detect_never_single (restFn : Str → List (Str × Str)) (raw : Str)
    (l : List ProductData)
    (hok : detectMultipleProducts restFn raw = .ok l) : l.length ≠ 1 := by
  unfold detectMultipleProducts at hok
  by_cases hraw : raw.isEmpty = true
  · rw [if_pos hraw] at hok
    cases hok
    simp
  · rw [if_neg hraw] at hok
    by_cases hst : 1 < (stPatternsOf raw).length
    · rw [if_pos hst] at hok
      cases hok
      simp only [stBranch, List.length_map, List.enum_length]
      omega
    · rw [if_neg hst] at hok
      by_cases hj : 1 < (janPatternsOf raw).length
      · rw [if_pos hj] at hok
        obtain ⟨h1, _⟩ := janBranchLoop_spec restFn raw _ 0 l hok
        have := congrArg List.length h1
        simp at this
        omega
      · rw [if_neg hj] at hok
        cases hfb : fallbackBranches restFn raw (strippedLines raw) with
        | error e => rw [hfb] at hok; cases hok
        | ok products =>
          rw [hfb] at hok
          cases hok
          by_cases hlen : 1 < products.length
          · rw [if_pos hlen]
            omega
          · rw [if_neg hlen]
            simp

/-- Witness for `C10` at a plain single-product transcription. -/
theorem detect_never_single_witness :
    ([] : List ProductData).length ≠ 1 :=
  detect_never_single emptyRest (str "abc") [] (by rfl)

/-- A count phrase with `n ≥ 2` makes the count-expression detector
fire. -/
theorem detectByCountExpr_of_match {raw : Str} {n : Nat}
    (hcnt : searchNumBetween (str "全") (str "種類") raw = some n)
    (hn : 2 ≤ n) : detectByCountExpr raw = true := by
  have h1n : 1 < n := by omega
  simp [detectByCountExpr, countExprPatterns, hcnt, h1n]

/-- `C9`: for a transcription whose only multi-product signal is an
`全N種類` count phrase (first match value `n ≥ 2`), the segmenter
synthesizes exactly `min n 10` near-identical records from the single
parsed base record (the cap is the maximum display count 10), each
labelled with the variant index `i + 1` both in `product_index` and in
the ` - タイプ{i+1}` suffix of the product name. -/
theorem countphrase_fallback (restFn : Str → List (Str × Str)) (raw : Str)
    (n : Nat) (base : ProductData)
    (hst : (stPatternsOf raw).length ≤ 1)
    (hj : (janPatternsOf raw).length ≤ 1)
    (hms : hasMultipleStCodes (strippedLines raw) = false)
    (hme : hasMultipleEnCodes (strippedLines raw) = false)
    (htb : detectTableStructure (strippedLines raw) = false)
    (hpk : detectMultiplePokemon raw = false)
    (hcnt : searchNumBetween (str "全") (str "種類") raw = some n)
    (hn : 2 ≤ n)
    (hbase : parseProductData restFn raw = .ok base) :
    detectMultipleProducts restFn raw = .ok (countVariants base n) ∧
    (countVariants base n).length = min n 10 ∧
    ∀ i < min n 10,
      (countVariants base n).get? i = some
        { base with
          product_name := some ((base.product_name.getD (str "Unknown")) ++
            str " - タイプ" ++ natToStr (i + 1))
          product_index := some (i + 1)
          section_text := some (str "Product " ++ natToStr (i + 1) ++
            str " from " ++ natToStr n ++ str " total variants") } := by
  have hraw : ¬raw.isEmpty = true := by
    cases raw with
    | nil => rw [show searchNumBetween (str "全") (str "種類") ([] : Str) =
        none from rfl] at hcnt; cases hcnt
    | cons c t => simp
  have hlen : (countVariants base n).length = min n 10 := by
    simp [countVariants]
  have hfb : fallbackBranches restFn raw (strippedLines raw) =
      .ok (countVariants base n) := by
    unfold fallbackBranches
    rw [if_neg (by simp [hms, hme]), if_neg (by simp [htb]),
      if_neg (by simp [hpk]), if_pos (detectByCountExpr_of_match hcnt hn)]
    unfold countBranch
    rw [hcnt, hbase]
  refine ⟨?_, hlen, ?_⟩
  · unfold detectMultipleProducts
    rw [if_neg hraw, if_neg (by omega), if_neg (by omega), hfb]
    dsimp only
    rw [if_pos (show 1 < (countVariants base n).length by rw [hlen]; omega)]
  · intro i hi
    unfold countVariants
    rw [List.get?_map, List.get?_range (by simpa using hi)]
    rfl

/-- Witness for `C9` at the transcription `"全5種類"`. -/
theorem countphrase_fallback_witness :
    detectMultipleProducts emptyRest (str "全5種類") = .ok
      (countVariants
        { description := some
            (str "商品の詳細については商品名やカテゴリをご参照ください。") } 5) ∧
    (countVariants
        { description := some
            (str "商品の詳細については商品名やカテゴリをご参照ください。") } 5).length =
      min 5 10 ∧
    ∀ i < min 5 10,
      (countVariants
          { description := some
              (str "商品の詳細については商品名やカテゴリをご参照ください。") } 5).get? i =
        some
          { ({ description := some
                (str "商品の詳細については商品名やカテゴリをご参照ください。") } :
              ProductData) with
            product_name := some
              ((({ description := some
                    (str "商品の詳細については商品名やカテゴリをご参照ください。") } :
                  ProductData).product_name.getD (str "Unknown")) ++
                str " - タイプ" ++ natToStr (i + 1))
            product_index := some (i + 1)
            section_text := some (str "Product " ++ natToStr (i + 1) ++
              str " from " ++ natToStr 5 ++ str " total variants") } :=
  countphrase_fallback emptyRest (str "全5種類") 5
    { description := some
        (str "商品の詳細については商品名やカテゴリをご参照ください。") }
    (by decide) (by decide) (by rfl) (by rfl) (by rfl) (by rfl) (by rfl)
    (by omega) (by rfl)

/-! ### Injectivity of the ST–JAN mapping (claim C5) -/

theorem dvalues_dinsert_subset :
    ∀ {m : List (Str × Str)} {k v b : Str},
      b ∈ dvalues (dinsert m k v) → b ∈ dvalues m ∨ b = v
  | [], k, v, b, h => by
    simp [dinsert, dvalues] at h
    exact Or.inr h
  | p :: ps, k, v, b, h => by
    rw [dinsert] at h
    split at h
    · rcases List.mem_cons.mp h with h | h
      · exact Or.inr h
      · exact Or.inl (List.mem_cons_of_mem _ h)
    · rcases List.mem_cons.mp h with h | h
      · exact Or.inl (h ▸ List.mem_cons_self _ _)
      · rcases dvalues_dinsert_subset h with h | h
        · exact Or.inl (List.mem_cons_of_mem _ h)
        · exact Or.inr h

/-- Inserting a fresh value keeps the values pairwise distinct. -/
theorem dinsert_values_nodup :
    ∀ {m : List (Str × Str)} {k v : Str}, (dvalues m).Nodup →
      v ∉ dvalues m → (dvalues (dinsert m k v)).Nodup
  | [], k, v, _, _ => by simp [dinsert, dvalues]
  | p :: ps, k, v, hv, hnew => by
    rw [dinsert]
    have hv' := List.nodup_cons.mp hv
    split
    · refine List.nodup_cons.mpr ⟨?_, hv'.2⟩
      exact fun hmem => hnew (List.mem_cons_of_mem _ hmem)
    · refine List.nodup_cons.mpr ⟨?_, ?_⟩
      · intro hmem
        rcases dvalues_dinsert_subset hmem with h | h
        · exact hv'.1 h
        · exact hnew (h ▸ List.mem_cons_self _ _)
      · exact dinsert_values_nodup hv'.2
          (fun hmem => hnew (List.mem_cons_of_mem _ hmem))

/-- A `contains = false` test means non-membership. -/
theorem not_mem_of_contains_false {l : List Str} {a : Str}
    (h : l.contains a = false) : a ∉ l := by
  intro hmem
  have hc : l.contains a = true := List.elem_eq_true_of_mem hmem
  rw [hc] at h
  cases h

/-- The proximity scan preserves distinct values. -/
theorem stJanProxLoop_nodup (tl : List Str) (st : Str) :
    ∀ (idxs : List Nat) (m : List (Str × Str)), (dvalues m).Nodup →
      (dvalues (stJanProxLoop tl st m idxs)).Nodup
  | [], _, hv => hv
  | j :: js, m, hv => by
    rw [stJanProxLoop]
    cases hs : searchJan13 (tl.getD j []) with
    | none => exact stJanProxLoop_nodup tl st js m hv
    | some jan =>
      dsimp only
      by_cases hc : (dvalues m).contains jan = true
      · rw [if_pos hc]
        exact stJanProxLoop_nodup tl st js m hv
      · rw [if_neg hc]
        exact dinsert_values_nodup hv
          (not_mem_of_contains_false (Bool.eq_false_iff.mpr hc))

/-- Step 1+2 for a code with no direct table entry preserves distinct
values. -/
theorem stJanStep12_nodup {tl : List Str} {m : List (Str × Str)} {st : Str}
    (hdir : getJanCodeForStCode st = []) (hv : (dvalues m).Nodup) :
    (dvalues (stJanStep12 tl m st)).Nodup := by
  unfold stJanStep12
  rw [hdir]
  rw [if_neg (by decide)]
  cases hi : tl.findIdx? (fun l => containsSub l st) with
  | none => exact hv
  | some i => exact stJanProxLoop_nodup tl st _ m hv

/-- All values of the direct table are non-empty, and its keys coincide
with the character table's keys, so a code with no direct entry has no
character either. -/
theorem getCharacterForStCode_empty {st : Str}
    (h : getJanCodeForStCode st = []) : getCharacterForStCode st = [] := by
  unfold getJanCodeForStCode dictGetD at h
  cases hf : stJanPairs.find? (fun p => p.1 = st) with
  | some p =>
    rw [hf] at h
    simp at h
    have hmem := List.mem_of_find?_eq_some hf
    have hall : ∀ q ∈ stJanPairs, q.2 ≠ [] := by decide
    exact absurd h (hall p hmem)
  | none =>
    unfold getCharacterForStCode dictGetD
    have hnone : stCharPairs.find? (fun p => p.1 = st) = none := by
      rw [List.find?_eq_none] at hf ⊢
      intro q hq
      have hk : q.1 ∈ stJanPairs.map Prod.fst := by
        have : stCharPairs.map Prod.fst = stJanPairs.map Prod.fst := by decide
        rw [← this]
        exact List.mem_map_of_mem Prod.fst hq
      obtain ⟨p, hp, hpq⟩ := List.mem_map.mp hk
      have := hf p hp
      simp only [decide_eq_true_eq] at this ⊢
      rw [← hpq]
      exact this
    rw [hnone]
    rfl

/-- Step 3 is the identity for a code with no character entry. -/
theorem stJanStep3_no_char {tl : List Str} {m : List (Str × Str)} {st : Str}
    (hchar : getCharacterForStCode st = []) : stJanStep3 tl m st = m := by
  unfold stJanStep3
  split
  · rfl
  · rw [hchar]
    rfl

/-- The second components of a zip form a sublist of the second list. -/
theorem zip_map_snd_sublist :
    ∀ (l1 l2 : List Str), ((l1.zip l2).map Prod.snd).Sublist l2
  | [], l2 => by simp
  | _ :: _, [] => by simp
  | a :: l1, b :: l2 => by
    rw [List.zip_cons_cons, List.map_cons]
    exact (zip_map_snd_sublist l1 l2).cons₂ b

/-- The leftover-assignment fold preserves distinct values when the
assigned barcodes are fresh and pairwise distinct. -/
theorem stJanStep4_fold_nodup :
    ∀ (zs : List (Str × Str)) (m : List (Str × Str)),
      (dvalues m).Nodup → (∀ p ∈ zs, fullJan p.2 ∉ dvalues m) →
      (zs.map (fun p => fullJan p.2)).Nodup →
      (dvalues (zs.foldl (fun acc p => dinsert acc p.1 (fullJan p.2)) m)).Nodup
  | [], m, hv, _, _ => hv
  | z :: zs, m, hv, hmem, hnd => by
    rw [List.foldl_cons]
    rw [List.map_cons] at hnd
    have hnd' := List.nodup_cons.mp hnd
    refine stJanStep4_fold_nodup zs _ ?_ ?_ hnd'.2
    · exact dinsert_values_nodup hv (hmem z (List.mem_cons_self _ _))
    · intro p hp hin
      rcases dvalues_dinsert_subset hin with h | h
      · exact hmem p (List.mem_cons_of_mem _ hp) h
      · exact hnd'.1 (h ▸ List.mem_map_of_mem (fun q => fullJan q.2) hp)

/-- `C5` (amended): in `_create_st_jan_mapping`, the positional
proximity, name-mediated and leftover-assignment steps never assign an
already-used barcode; consequently, for a document none of whose `ST-`
codes has a static-table entry (the direct-lookup step, which skips the
used-set check, does not fire) and whose detected barcode occurrence
list is duplicate-free and 13-digit (as the detector produces), the
resulting code→barcode mapping is injective: its values are pairwise
distinct. -/
theorem st_jan_mapping_injective (raw : Str) (sts jans : List Str)
    (hdir : ∀ st ∈ sts, getJanCodeForStCode st = [])
    (hjnd : jans.Nodup) (hlen : ∀ j ∈ jans, j.length = 13) :
    (dvalues (createStJanMapping raw sts jans)).Nodup := by
  unfold createStJanMapping
  dsimp only
  have h12 : ∀ (l : List Str) (m : List (Str × Str)),
      (∀ st ∈ l, getJanCodeForStCode st = []) → (dvalues m).Nodup →
      (dvalues (l.foldl (stJanStep12 (strippedLines raw)) m)).Nodup := by
    intro l
    induction l with
    | nil => exact fun m _ hv => hv
    | cons st l ih =>
      intro m hd hv
      rw [List.foldl_cons]
      exact ih _ (fun x hx => hd x (List.mem_cons_of_mem _ hx))
        (stJanStep12_nodup (hd st (List.mem_cons_self _ _)) hv)
  have h3 : ∀ (l : List Str) (m : List (Str × Str)),
      (∀ st ∈ l, getJanCodeForStCode st = []) →
      l.foldl (stJanStep3 (strippedLines raw)) m = m := by
    intro l
    induction l with
    | nil => exact fun m _ => rfl
    | cons st l ih =>
      intro m hd
      rw [List.foldl_cons,
        stJanStep3_no_char (getCharacterForStCode_empty
          (hd st (List.mem_cons_self _ _)))]
      exact ih m (fun x hx => hd x (List.mem_cons_of_mem _ hx))
  rw [h3 sts _ hdir]
  set m1 := sts.foldl (stJanStep12 (strippedLines raw)) [] with hm1
  have hv1 : (dvalues m1).Nodup := h12 sts [] hdir (by simp [dvalues])
  unfold stJanStep4
  have hsub : ∀ p ∈ ((sts.filter (fun st => !dhasKey m1 st)).zip
      (jans.filter (fun j => !(dvalues m1).contains j))),
      p.2 ∈ jans.filter (fun j => !(dvalues m1).contains j) :=
    fun p hp => (List.mem_zip hp).2
  have hfull : ∀ j ∈ jans.filter (fun j => !(dvalues m1).contains j),
      fullJan j = j := by
    intro j hj
    have := hlen j (List.mem_of_mem_filter hj)
    unfold fullJan
    rw [if_pos this]
  refine stJanStep4_fold_nodup _ m1 hv1 ?_ ?_
  · intro p hp hin
    have hj := hsub p hp
    rw [hfull p.2 hj] at hin
    have := List.of_mem_filter hj
    exact not_mem_of_contains_false (by simpa using this) hin
  · have hzsnd : (((sts.filter (fun st => !dhasKey m1 st)).zip
        (jans.filter (fun j => !(dvalues m1).contains j))).map
        Prod.snd).Nodup :=
      (zip_map_snd_sublist _ _).nodup (hjnd.filter _)
    have : (((sts.filter (fun st => !dhasKey m1 st)).zip
        (jans.filter (fun j => !(dvalues m1).contains j))).map
        (fun p => fullJan p.2)) =
        (((sts.filter (fun st => !dhasKey m1 st)).zip
          (jans.filter (fun j => !(dvalues m1).contains j))).map
          Prod.snd) := by
      apply List.map_congr_left
      intro p hp
      exact hfull p.2 (hsub p hp)
    rw [this]
    exact hzsnd

/-- Witness for `C5` (amended): two unknown codes, two distinct
barcodes ten lines apart. -/
theorem st_jan_mapping_injective_witness :
    (dvalues (createStJanMapping
        (str "ST-97ZX\nST-98ZY\n4111111111111\n4222222222222")
        [str "ST-97ZX", str "ST-98ZY"]
        [str "4111111111111", str "4222222222222"])).Nodup :=
  st_jan_mapping_injective
    (str "ST-97ZX\nST-98ZY\n4111111111111\n4222222222222")
    [str "ST-97ZX", str "ST-98ZY"]
    [str "4111111111111", str "4222222222222"]
    (by decide) (by decide) (by decide)

/-! ### The rate-limit handler of the job loop is dead code (claim C2) -/

theorem processJobLoop_spec :
    ∀ (fs : List FileSpec) (acc : List ExtractedRecord) (n : Nat),
      processJobLoop (acc, n) fs =
        (acc ++ fs.filterMap processSingleFile,
          n + (fs.filterMap processSingleFile).length)
  | [], acc, n => by simp [processJobLoop]
  | f :: fs, acc, n => by
    rw [processJobLoop]
    cases h : processSingleFile f with
    | some r =>
      dsimp only
      rw [processJobLoop_spec fs (acc ++ [r]) (n + 1)]
      rw [List.filterMap_cons, h]
      refine congrArg₂ Prod.mk (by simp) ?_
      rw [List.length_cons]
      omega
    | none =>
      dsimp only
      rw [processJobLoop_spec fs acc n]
      rw [List.filterMap_cons, h]

/-- `C2` (code bug): a rate-limit/quota failure of the transcription
call never yields a persisted `pending_retry` record.  The handler at
`process_conversion_job` lines 126–144 does build such a placeholder
(first conjunct) and its quota test does match the service's 429
message (second conjunct); but `_process_single_file`'s blanket
`except Exception: return None` (lines 314–316) swallows the error
first, so the rate-limited file contributes no record at all (third
conjunct).  Processing of the remaining files does continue — the job's
records are exactly the per-file results in order (fourth conjunct) —
yet no record of any job ever carries status `pending_retry` (fifth
conjunct): the claimed placeholder is unreachable. -/
theorem pending_retry_never_persisted :
    (∀ n m, (mkQuotaRetryRecord n m).status = str "pending_retry" ∧
      (mkQuotaRetryRecord n m).raw_text = str "API制限により処理待ち: " ++ m) ∧
    isQuotaError (str "OpenAI API quota exceeded. Error: 429 rate limit")
      = true ∧
    processSingleFile rateLimitFile = none ∧
    (∀ fs, (processConversionJob fs).records
      = fs.filterMap processSingleFile) ∧
    (∀ fs, ((processConversionJob fs).records.all
      (fun r => !(r.status == str "pending_retry"))) = true) := by
  have hrec : ∀ fs, (processConversionJob fs).records
      = fs.filterMap processSingleFile := by
    intro fs
    unfold processConversionJob
    rw [processJobLoop_spec fs [] 0]
    simp
  refine ⟨fun n m => ⟨rfl, rfl⟩, by decide, by decide, hrec, ?_⟩
  intro fs
  rw [hrec fs, List.all_eq_true]
  intro r hr
  obtain ⟨f, _, hps⟩ := List.mem_filterMap.mp hr
  unfold processSingleFile at hps
  split at hps
  · cases hps
  · split at hps
    · cases hps
    · injection hps with h
      subst h
      simp only [mkExtractedRecord, Bool.not_eq_true']
      split
      · decide
      · decide

end Aiocr
